import Mathlib

/-!
Shallow embedding of the confidence-scoring and validation core of the
Agentic Document Extraction System (src/utils/confidence_scorer.py,
src/agent/validation_rules.py, src/agent/core.py), together with proofs
of the behavioural claims about it.

Modelling conventions:
* Python numbers (int / float / Decimal) are modelled as `ℚ`; the tolerance
  comparisons in the validation rules are exact rational comparisons.
* Python dicts are modelled as association lists `List (String × PyVal)`;
  lookup follows `dict(items)` semantics (a later binding shadows an
  earlier one).  Dicts produced by JSON parsing have distinct keys, so the
  choice is observationally irrelevant for the program's real inputs.
* Python exceptions are modelled with `Except PyExc`; only the exception
  classes that the source can actually raise or catch are distinguished.
* `str.lower()` / `str.strip()` are modelled with Lean's ASCII
  `String.toLower` / `String.trim`; the repository only ever feeds ASCII
  rule identifiers and OCR tokens through these paths.
-/

/-- A Python runtime value, as far as the extraction pipeline manipulates
them: `None`, strings, numbers (int/float/Decimal collapsed to `ℚ`),
booleans, lists and string-keyed dicts. -/
inductive PyVal where
  | none : PyVal
  | str (s : String) : PyVal
  | num (q : ℚ) : PyVal
  | boolean (b : Bool) : PyVal
  | list (items : List PyVal) : PyVal
  | dict (entries : List (String × PyVal)) : PyVal

/-- The Python identity test `v is None`. -/
def isNoneV : PyVal → Bool
  | PyVal.none => true
  | _ => false

/-- Python exception classes distinguished by the modelled code:
`except ValueError` and `except (ValueError, TypeError)` blocks make the
class of a raised exception observable. -/
inductive PyExc where
  | typeError : PyExc
  | valueError : PyExc
  | attributeError : PyExc
deriving Repr, DecidableEq

/-- `d[key]` / `d.get(key)` / `key in d` lookup on a Python dict modelled
as an association list: the *last* binding for a key wins, matching the
semantics of `dict(items)` construction. -/
def assocLookup {α : Type} : List (String × α) → String → Option α
  | [], _ => Option.none
  | (k, v) :: rest, key =>
    match assocLookup rest key with
    | Option.some r => Option.some r
    | Option.none => if k = key then Option.some v else Option.none

/-- Python truthiness (`bool(v)`) for the modelled values. -/
def pyTruthy : PyVal → Bool
  | PyVal.none => false
  | PyVal.str s => !s.isEmpty
  | PyVal.num q => decide (q ≠ 0)
  | PyVal.boolean b => b
  | PyVal.list l => !l.isEmpty
  | PyVal.dict d => !d.isEmpty

/-- Boolean test that `sub` occurs as a contiguous substring of `l`
(the Python `sub in s` operator on strings, over character lists). -/
def infixB (sub : List Char) : List Char → Bool
  | [] => sub.isEmpty
  | c :: rest => sub.isPrefixOf (c :: rest) || infixB sub rest

/-- The Python substring operator `sub in s` on strings. -/
def containsSub (s sub : String) : Bool := infixB sub.toList s.toList

/-- The single-quote character, written via its code point. -/
def pyQuote : String := String.mk [Char.ofNat 39]

/-- Rendering of a modelled number, standing in for Python's `str()` on
ints/floats/Decimals.  The exact decimal rendering is irrelevant to every
claim: all string comparisons in the source compare two values that both
pass through the same stringification. -/
def ratStr (q : ℚ) : String :=
  if q.den = 1 then toString q.num else toString q.num ++ "/" ++ toString q.den

/-- `isinstance(v, dict)`. -/
def isDictV : PyVal → Bool
  | PyVal.dict _ => true
  | _ => false

/-- `isinstance(v, list)`. -/
def isListV : PyVal → Bool
  | PyVal.list _ => true
  | _ => false

mutual
/-- Python `repr(v)` (used by `str` on containers); quote-escaping inside
strings is not modelled. -/
def pyRepr : PyVal → String
  | PyVal.none => "None"
  | PyVal.str s => pyQuote ++ s ++ pyQuote
  | PyVal.num q => ratStr q
  | PyVal.boolean b => if b then "True" else "False"
  | PyVal.list items => "[" ++ pyReprList items ++ "]"
  | PyVal.dict entries => "\x7b" ++ pyReprDict entries ++ "\x7d"

/-- Comma-joined reprs of list elements. -/
def pyReprList : List PyVal → String
  | [] => ""
  | [v] => pyRepr v
  | v :: rest => pyRepr v ++ ", " ++ pyReprList rest

/-- Comma-joined reprs of dict entries. -/
def pyReprDict : List (String × PyVal) → String
  | [] => ""
  | [(k, v)] => pyQuote ++ k ++ pyQuote ++ ": " ++ pyRepr v
  | (k, v) :: rest => pyQuote ++ k ++ pyQuote ++ ": " ++ pyRepr v ++ ", " ++ pyReprDict rest
end

/-- Python `str(v)`: identity on strings, `repr`-style elsewhere. -/
def pyStr : PyVal → String
  | PyVal.str s => s
  | v => pyRepr v

/-- The key-joining step of `flatten_dict`:
`f"{parent_key}{sep}{k}" if parent_key else k` with `sep = "."`. -/
def joinKey (parent k : String) : String :=
  if parent = "" then k else parent ++ "." ++ k

mutual
/-- One dispatch step of the nested `flatten_dict` helper inside
`_calculate_llm_consistency`: a dict recurses, a list whose elements are
all dicts is expanded positionally, everything else is a stringified
leaf. -/
def flattenVal (newKey : String) : PyVal → List (String × String)
  | PyVal.dict entries => flattenEntries entries newKey
  | PyVal.list items =>
      if items.all isDictV then flattenItems newKey 0 items
      else [(newKey, pyStr (PyVal.list items))]
  | v => [(newKey, pyStr v)]

/-- `flatten_dict(d, parent_key)` over the entries of `d`, in iteration
order.  The Python code wraps the result in `dict(items)`; lookups into
the result therefore use the last-binding-wins `assocLookup`. -/
def flattenEntries : List (String × PyVal) → String → List (String × String)
  | [], _ => []
  | (k, v) :: rest, parent =>
      flattenVal (joinKey parent k) v ++ flattenEntries rest parent

/-- The `for i, item_val in enumerate(v)` expansion of a list of dicts,
with keys `newKey.<i>`. -/
def flattenItems (newKey : String) (i : ℕ) : List PyVal → List (String × String)
  | [] => []
  | item :: rest =>
      (match item with
       | PyVal.dict entries => flattenEntries entries (newKey ++ "." ++ toString i)
       | _ => []) ++ flattenItems newKey (i + 1) rest
end

/-- Python `str.strip()`: drop leading and trailing whitespace. -/
def trimChars (l : List Char) : List Char :=
  ((l.dropWhile Char.isWhitespace).reverse.dropWhile Char.isWhitespace).reverse

/-- Python `str.strip()` on a `String`. -/
def pyStrip (s : String) : String := String.mk (trimChars s.toList)

/-- Python `str.lower()` (ASCII case folding, which covers every string
the repository feeds through this path). -/
def lowerStr (s : String) : String := String.mk (s.toList.map Char.toLower)

/-- Split a leading run of decimal digits from a character list. -/
def splitDigits : List Char → List Char × List Char
  | [] => ([], [])
  | c :: rest =>
    if c.isDigit then
      let p := splitDigits rest
      (c :: p.1, p.2)
    else ([], c :: rest)

/-- Numeric value of a digit run. -/
def digitsToNat (l : List Char) : ℕ :=
  l.foldl (fun a c => 10 * a + (c.toNat - 48)) 0

/-- Python `float(s)` on a string: optional surrounding whitespace, sign,
decimal digits with an optional fraction part, optional exponent.
(`inf`/`nan` and digit-group underscores are not representable in `ℚ` /
not used by this repository and parse as failures.) -/
def parseFloatQ (s : String) : Option ℚ :=
  let l0 := trimChars s.toList
  let sl : ℚ × List Char :=
    match l0 with
    | '+' :: r => (1, r)
    | '-' :: r => (-1, r)
    | r => (1, r)
  let ip := splitDigits sl.2
  let fp : Option (List Char) × List Char :=
    match ip.2 with
    | '.' :: r =>
      let p := splitDigits r
      (Option.some p.1, p.2)
    | r => (Option.none, r)
  if ip.1.isEmpty ∧ (fp.1.getD []).isEmpty then Option.none
  else
    let frac := fp.1.getD []
    let mantissa : ℚ :=
      sl.1 * ((digitsToNat ip.1 : ℚ) + (digitsToNat frac : ℚ) / (10 ^ frac.length))
    match fp.2 with
    | [] => Option.some mantissa
    | 'e' :: r | 'E' :: r =>
      let esl : ℤ × List Char :=
        match r with
        | '+' :: r2 => (1, r2)
        | '-' :: r2 => (-1, r2)
        | r2 => (1, r2)
      let ed := splitDigits esl.2
      if ed.1.isEmpty ∨ !ed.2.isEmpty then Option.none
      else Option.some (mantissa * (10 : ℚ) ^ (esl.1 * (digitsToNat ed.1 : ℤ)))
    | _ => Option.none

/-- Python `float(v)` on an arbitrary value: numbers and booleans convert,
strings are parsed (`ValueError` on failure), `None` and containers raise
`TypeError`. -/
def pyFloat : PyVal → Except PyExc ℚ
  | PyVal.num q => Except.ok q
  | PyVal.boolean b => Except.ok (if b then 1 else 0)
  | PyVal.str s =>
    match parseFloatQ s with
    | Option.some q => Except.ok q
    | Option.none => Except.error PyExc.valueError
  | _ => Except.error PyExc.typeError

/-- `_is_valid_decimal` (validation_rules.py): `float(value)` inside
`try/except (ValueError, TypeError)` — total, since those are the only
exceptions `float` can raise here. -/
def _is_valid_decimal (v : PyVal) : Bool :=
  match pyFloat v with
  | Except.ok _ => true
  | Except.error _ => false

/-- Whether a year is a Gregorian leap year (as `datetime` computes it). -/
def isLeapYear (y : ℕ) : Bool :=
  decide ((y % 4 = 0 ∧ y % 100 ≠ 0) ∨ y % 400 = 0)

/-- Days in a month, as enforced by `datetime`'s date constructor. -/
def daysInMonth (y m : ℕ) : ℕ :=
  if m = 2 then (if isLeapYear y then 29 else 28)
  else if m = 4 ∨ m = 6 ∨ m = 9 ∨ m = 11 then 30
  else 31

/-- The `%m` pattern of `strptime` (regex `1[0-2]|0[1-9]|[1-9]`), applied
at the head of the character list; returns the month and the remainder.
The regex alternatives never need backtracking for a full-string match of
`%Y-%m-%d`, so this first-match parse is equivalent. -/
def parseMonth : List Char → Option (ℕ × List Char)
  | c1 :: c2 :: rest =>
    if c1 = '1' ∧ '0' ≤ c2 ∧ c2 ≤ '2' then Option.some (10 + (c2.toNat - 48), rest)
    else if c1 = '0' ∧ '1' ≤ c2 ∧ c2 ≤ '9' then Option.some (c2.toNat - 48, rest)
    else if '1' ≤ c1 ∧ c1 ≤ '9' then Option.some (c1.toNat - 48, c2 :: rest)
    else Option.none
  | [c1] =>
    if '1' ≤ c1 ∧ c1 ≤ '9' then Option.some (c1.toNat - 48, []) else Option.none
  | [] => Option.none

/-- The `%d` pattern of `strptime` (regex `3[01]|[12][0-9]|0[1-9]|[1-9]`). -/
def parseDay : List Char → Option (ℕ × List Char)
  | c1 :: c2 :: rest =>
    if c1 = '3' ∧ (c2 = '0' ∨ c2 = '1') then Option.some (30 + (c2.toNat - 48), rest)
    else if (c1 = '1' ∨ c1 = '2') ∧ c2.isDigit then
      Option.some ((c1.toNat - 48) * 10 + (c2.toNat - 48), rest)
    else if c1 = '0' ∧ '1' ≤ c2 ∧ c2 ≤ '9' then Option.some (c2.toNat - 48, rest)
    else if '1' ≤ c1 ∧ c1 ≤ '9' then Option.some (c1.toNat - 48, c2 :: rest)
    else Option.none
  | [c1] =>
    if '1' ≤ c1 ∧ c1 ≤ '9' then Option.some (c1.toNat - 48, []) else Option.none
  | [] => Option.none

/-- `datetime.strptime(s, "%Y-%m-%d")` succeeding on a string: four year
digits, dash, `%m`, dash, `%d`, end of string, and the resulting calendar
date must exist (a `ValueError` from either stage makes this `false`). -/
def dateOk (s : String) : Bool :=
  match s.toList with
  | y1 :: y2 :: y3 :: y4 :: '-' :: rest =>
    if y1.isDigit ∧ y2.isDigit ∧ y3.isDigit ∧ y4.isDigit then
      match parseMonth rest with
      | Option.some (m, '-' :: rest2) =>
        match parseDay rest2 with
        | Option.some (d, []) =>
          let y := digitsToNat [y1, y2, y3, y4]
          decide (1 ≤ y ∧ d ≤ daysInMonth y m)
        | _ => false
      | _ => false
    else false
  | _ => false

/-- `_is_valid_date` (validation_rules.py): `strptime` wrapped in
`try/except ValueError` only — a non-string argument raises a `TypeError`
that the function does *not* catch. -/
def _is_valid_date (v : PyVal) : Except PyExc Bool :=
  match v with
  | PyVal.str s => Except.ok (dateOk s)
  | _ => Except.error PyExc.typeError

/-- Python iteration `for item in v`: lists yield their elements, strings
their one-character substrings, dicts their keys; other values raise
`TypeError`. -/
def pyIter : PyVal → Except PyExc (List PyVal)
  | PyVal.list l => Except.ok l
  | PyVal.str s => Except.ok (s.toList.map (fun c => PyVal.str (String.mk [c])))
  | PyVal.dict d => Except.ok (d.map (fun kv => PyVal.str kv.1))
  | _ => Except.error PyExc.typeError

/-- `item.get(key)` with default `None`: only dicts have `.get`; on any
other value attribute lookup raises `AttributeError`. -/
def pyDictGetAttr : PyVal → String → Except PyExc PyVal
  | PyVal.dict d, key => Except.ok ((assocLookup d key).getD PyVal.none)
  | _, _ => Except.error PyExc.attributeError

/-!
## The confidence scorer (src/utils/confidence_scorer.py)
-/

/-- A bounding box `[x0, y0, x1, y1]`. -/
structure Box where
  x0 : ℚ
  y0 : ℚ
  x1 : ℚ
  y1 : ℚ
deriving DecidableEq, Repr

/-- One OCR token dict as produced by `process_document`: keys `word`,
`bbox`, `page_num`, and optionally `conf` (Tesseract word confidence on
the 0-100 scale; PyMuPDF provides none, which `box_info.get('conf', 100)`
defaults to 100). -/
structure WordBox where
  word : String
  bbox : Box
  page_num : ℕ
  conf : Option ℚ
deriving DecidableEq, Repr

/-- The `qa_results` dict consumed by the scorer and produced by
`run_validation`: `passed_rules`, `failed_rules`, `notes`. -/
structure QaResults where
  passed_rules : List String
  failed_rules : List String
  notes : String
deriving DecidableEq, Repr

/-- The per-field output record assembled by
`calculate_confidence_scores`: `name`, `value`, `confidence`, `source`. -/
structure SourceInfo where
  page : ℕ
  bbox : Box
deriving DecidableEq, Repr

structure FieldRecord where
  name : String
  value : String
  confidence : ℚ
  source : Option SourceInfo
deriving DecidableEq, Repr

/-- The source tests `sub in str(qa_results.get('failed_rules', []))`.
The probe strings used (`"format_invalid"`, `"numeric_invalid"`) contain
no quote, bracket or separator characters, so an occurrence inside the
`str()` rendering of the list lies entirely inside one element; the test
is therefore equivalent to: some rule id contains the probe as a
substring, which is the form embedded here. -/
def anyRuleContains (rules : List String) (sub : String) : Bool :=
  rules.any (fun r => containsSub r sub)

/-- The validation-score component of
`_calculate_field_composite_confidence` (confidence_scorer.py lines
140-151), lifted into its own definition: start at 1.0; set to 0.5 if the
field name contains "date" and any date-format failure is recorded; set
to 0.5 if any numeric-format failure is recorded and the field name
contains "amount"/"total"/"subtotal"/"charge". -/
def validationScore (field_name : String) (qa : QaResults) : ℚ :=
  if anyRuleContains qa.failed_rules "numeric_invalid" &&
      (containsSub field_name "amount" || containsSub field_name "total" ||
       containsSub field_name "subtotal" || containsSub field_name "charge")
  then 1/2
  else if containsSub field_name "date" && anyRuleContains qa.failed_rules "format_invalid"
  then 1/2
  else 1

/-- The `matching_word_confs` list of `_get_ocr_confidence_for_value`:
`box_info.get('conf', 100) / 100.0` for each OCR token whose normalized
word is a substring of the normalized value or vice versa. -/
def matchingConfs (value : String) (word_boxes : List WordBox) : List ℚ :=
  word_boxes.filterMap (fun b =>
    if containsSub (lowerStr (pyStrip b.word)) (lowerStr (pyStrip value)) ||
        containsSub (lowerStr (pyStrip value)) (lowerStr (pyStrip b.word))
    then Option.some ((b.conf.getD 100) / 100)
    else Option.none)

/-- `_get_ocr_confidence_for_value`: mean of `matchingConfs`; `0.0` with
no value, no boxes, or no match. -/
def _get_ocr_confidence_for_value (value : String) (word_boxes : List WordBox) : ℚ :=
  if value.isEmpty || word_boxes.isEmpty then 0
  else if (matchingConfs value word_boxes).isEmpty then 0
  else (matchingConfs value word_boxes).sum / (matchingConfs value word_boxes).length

/-- `_calculate_field_composite_confidence`: the fixed weighted blend
`0.70 * consistency + 0.20 * validation + 0.10 * ocr`. -/
def _calculate_field_composite_confidence (field_name field_value : String)
    (llm_consistency_score : ℚ) (qa : QaResults) (word_boxes : List WordBox) : ℚ :=
  (70/100 : ℚ) * llm_consistency_score
    + (20/100) * validationScore field_name qa
    + (10/100) * _get_ocr_confidence_for_value field_value word_boxes

/-- A `\w` character for the tokenization regex `\b\w+\b` (ASCII range,
which covers the repository's inputs). -/
def isWordChar (c : Char) : Bool := c.isAlphanum || c = '_'

/-- Accumulating scanner splitting a character list into its maximal runs
of word characters. -/
def wordRunsGo : List Char → List Char → List String
  | [], cur => if cur.isEmpty then [] else [String.mk cur.reverse]
  | c :: rest, cur =>
    if isWordChar c then wordRunsGo rest (c :: cur)
    else if cur.isEmpty then wordRunsGo rest []
    else String.mk cur.reverse :: wordRunsGo rest []

/-- `re.findall(r'\b\w+\b', value.lower())`: the maximal word-character
runs of the lower-cased value. -/
def wordTokens (value : String) : List String :=
  wordRunsGo (lowerStr value).toList []

/-- The `matching_boxes` collection of `_find_bbox_for_value`: the OCR
tokens whose lower-cased word is one of the value's word tokens, in index
order. -/
def matchingBoxes (value : String) (word_boxes : List WordBox) : List WordBox :=
  word_boxes.filter (fun b => (wordTokens value).contains (lowerStr b.word))

/-- `_find_bbox_for_value`: with no match return `None`; otherwise
aggregate the matched boxes (min `x0`/`y0`, max `x1`/`y1`) and take the
page of the first match in index order. -/
def _find_bbox_for_value (value : String) (word_boxes : List WordBox) : Option SourceInfo :=
  if value.isEmpty || word_boxes.isEmpty then Option.none
  else
    match matchingBoxes value word_boxes with
    | [] => Option.none
    | m :: rest =>
      Option.some
        { page := m.page_num
          bbox :=
            { x0 := (rest.map (fun b => b.bbox.x0)).foldl min m.bbox.x0
              y0 := (rest.map (fun b => b.bbox.y0)).foldl min m.bbox.y0
              x1 := (rest.map (fun b => b.bbox.x1)).foldl max m.bbox.x1
              y1 := (rest.map (fun b => b.bbox.y1)).foldl max m.bbox.y1 } }

/-- `_calculate_llm_consistency`: empty map with no repeated runs;
otherwise, for each flattened leaf of the primary data in iteration
order, the fraction of runs whose flattened value at that path equals the
primary value. -/
def _calculate_llm_consistency (extracted_data : List (String × PyVal))
    (llm_raw_outputs : List (List (String × PyVal))) : List (String × ℚ) :=
  if llm_raw_outputs.isEmpty then []
  else
    (flattenEntries extracted_data "").map (fun pv =>
      (pv.1,
        (((llm_raw_outputs.map (fun o => flattenEntries o "")).countP
            (fun o => decide (assocLookup o pv.1 = Option.some pv.2))) : ℚ) /
          llm_raw_outputs.length))

/-- Python's `round(x, 2)`.  `round` here is round-half-up on exact
rationals; CPython applies round-half-even to the nearest binary double,
which agrees except on exact two-decimal ties, which none of the claims
exercise. -/
def round2 (x : ℚ) : ℚ := (round (100 * x) : ℤ) / 100

/-- The shared per-field record construction of
`calculate_confidence_scores` (the loop body is identical for top-level
and nested fields, up to the field name). -/
def mkFieldRecord (field_name : String) (v : PyVal)
    (cons : List (String × ℚ)) (qa : QaResults) (word_boxes : List WordBox) :
    FieldRecord :=
  { name := field_name
    value := pyStr v
    confidence := round2 (_calculate_field_composite_confidence field_name (pyStr v)
      ((assocLookup cons field_name).getD 0) qa word_boxes)
    source := _find_bbox_for_value (pyStr v) word_boxes }

/-- The fixed critical-field weight table of
`_calculate_overall_confidence`. -/
def field_weights : List (String × ℚ) :=
  [("invoice_number", 3/2), ("total_amount", 2), ("vendor_name", 3/2),
   ("patient_name", 3/2), ("total_charges", 2), ("amount_due", 3/2),
   ("prescription_date", 3/2), ("doctor_name", 3/2), ("medications", 2)]

/-- `field_name.split('.')[0]`: the portion of a field name before the
first dot. -/
def topLevelName (name : String) : String :=
  String.mk (name.toList.takeWhile (fun c => c ≠ '.'))

/-- `field_weights.get(field_name.split('.')[0], 1.0)`. -/
def weightOf (name : String) : ℚ :=
  (assocLookup field_weights (topLevelName name)).getD 1

/-- The `weighted_sum` accumulator of `_calculate_overall_confidence`. -/
def weightedSumOf (fields : List FieldRecord) : ℚ :=
  (fields.map (fun f => f.confidence * weightOf f.name)).sum

/-- The `total_weight` accumulator of `_calculate_overall_confidence`. -/
def totalWeightOf (fields : List FieldRecord) : ℚ :=
  (fields.map (fun f => weightOf f.name)).sum

/-- `weighted_sum / total_weight if total_weight > 0 else 0.0`. -/
def unpenalizedScore (fields : List FieldRecord) : ℚ :=
  if totalWeightOf fields > 0 then weightedSumOf fields / totalWeightOf fields else 0

/-- `_calculate_overall_confidence`: weighted mean of the per-field
confidences (0.0 with no fields), multiplied by
`1 - min(0.1 * failed_rule_count, 0.5)` when any rule failed, rounded to
two decimal places. -/
def _calculate_overall_confidence (fields_with_confidence : List FieldRecord)
    (qa : QaResults) : ℚ :=
  if fields_with_confidence.isEmpty then 0
  else
    round2
      (if qa.failed_rules.length > 0 then
        unpenalizedScore fields_with_confidence *
          (1 - min ((1/10 : ℚ) * qa.failed_rules.length) (1/2))
      else unpenalizedScore fields_with_confidence)

/-- `calculate_confidence_scores`: build one record per top-level field,
expanding a list-of-dicts value into `key.<i>.<subkey>` records, then
aggregate the overall confidence from the (already rounded) per-field
records. -/
def calculate_confidence_scores (extracted_data : List (String × PyVal))
    (qa : QaResults) (llm_raw_outputs : List (List (String × PyVal)))
    (word_boxes : List WordBox) : List FieldRecord × ℚ :=
  let cons := _calculate_llm_consistency extracted_data llm_raw_outputs
  let fields := extracted_data.flatMap (fun kv =>
    match kv.2 with
    | PyVal.list items =>
      if items.all isDictV then
        items.enum.flatMap (fun iitem =>
          match iitem.2 with
          | PyVal.dict entries =>
            entries.map (fun skv =>
              mkFieldRecord (kv.1 ++ "." ++ toString iitem.1 ++ "." ++ skv.1)
                skv.2 cons qa word_boxes)
          | _ => [])
      else [mkFieldRecord kv.1 kv.2 cons qa word_boxes]
    | _ => [mkFieldRecord kv.1 kv.2 cons qa word_boxes])
  (fields, _calculate_overall_confidence fields qa)

/-!
## The validation rule engine (src/agent/validation_rules.py)
-/

/-- `key in extracted_data`. -/
def inDict (d : List (String × PyVal)) (k : String) : Bool :=
  (assocLookup d k).isSome

/-- `extracted_data[key]` at call sites guarded by a preceding
`key in extracted_data` test (the default is never observable). -/
def dictGet (d : List (String × PyVal)) (k : String) : PyVal :=
  (assocLookup d k).getD PyVal.none

/-- The body of the `try` block of the invoice line-items sum check:
`float(total)`, then iterate the line items, `item.get('line_total')`
twice per item (filter and value), sum the parseable line totals, and
compare against the total with tolerance `0.01`.  `ValueError` /
`TypeError` escape to the enclosing `except`; an `AttributeError` from
`.get` on a non-dict element escapes the whole rule. -/
def invoiceSumInner (total line_items : PyVal) : Except PyExc Bool := do
  let expected_total ← pyFloat total
  let items ← pyIter line_items
  let vals ← items.mapM (fun item => pyDictGetAttr item "line_total")
  let calculated := (vals.filter _is_valid_decimal).foldl
    (fun acc v => acc + ((pyFloat v).toOption.getD 0)) (0 : ℚ)
  pure (decide (|expected_total - calculated| < 1/100))

/-- The `if/else` passed/failed-append pattern of a mandatory rule:
append the pass rule id when the condition holds, the fail rule id
otherwise. -/
def rulePair (cond : Bool) (okRule failRule : String) : List String × List String :=
  if cond then ([okRule], []) else ([], [failRule])

/-- The `if/elif` pattern of an optional rule: pass id when valid, fail
id when present-but-invalid, nothing otherwise. -/
def optRulePair (condValid condFail : Bool) (okRule failRule : String) :
    List String × List String :=
  if condValid then ([okRule], [])
  else if condFail then ([], [failRule])
  else ([], [])

/-- `validate_invoice`: date-format rules for `invoice_date` and
`due_date`, numeric rules for `total_amount` / `subtotal` / `tax_amount`,
and the line-items sum cross-check, appending rule ids in source order.
The exception-free rule pairs are hoisted into `let`s after the fallible
steps (`_is_valid_date` calls and the sum check), which preserves the
source's raising behaviour exactly since the hoisted parts cannot
raise. -/
def validate_invoice (d : List (String × PyVal)) :
    Except PyExc (List String × List String) :=
  Except.bind
    (if inDict d "invoice_date" then _is_valid_date (dictGet d "invoice_date")
     else Except.ok false) (fun r1 =>
  Except.bind
    (if inDict d "due_date" && pyTruthy (dictGet d "due_date") then
       _is_valid_date (dictGet d "due_date")
     else Except.ok false) (fun r2 =>
  Except.bind
    (if inDict d "total_amount" && inDict d "line_items" then
       match invoiceSumInner (dictGet d "total_amount") (dictGet d "line_items") with
       | Except.ok true =>
         Except.ok ((["line_items_sum_matches_total"] : List String), ([] : List String))
       | Except.ok false => Except.ok ([], ["line_items_sum_mismatch"])
       | Except.error PyExc.valueError =>
         Except.ok ([], ["line_items_sum_check_failed_parsing"])
       | Except.error PyExc.typeError =>
         Except.ok ([], ["line_items_sum_check_failed_parsing"])
       | Except.error e => Except.error e
     else Except.ok ([], ["line_items_or_total_missing_for_sum_check"])) (fun pf6 =>
  let pr1 := rulePair r1 "invoice_date_format_valid" "invoice_date_format_invalid"
  let pr2 := optRulePair r2 (inDict d "due_date" && !isNoneV (dictGet d "due_date"))
    "due_date_format_valid" "due_date_format_invalid"
  let pr3 := rulePair (inDict d "total_amount" && _is_valid_decimal (dictGet d "total_amount"))
    "total_amount_numeric_valid" "total_amount_numeric_invalid"
  let pr4 := optRulePair
    (inDict d "subtotal" &&
      (isNoneV (dictGet d "subtotal") || _is_valid_decimal (dictGet d "subtotal")))
    (inDict d "subtotal" && !isNoneV (dictGet d "subtotal"))
    "subtotal_numeric_valid" "subtotal_numeric_invalid"
  let pr5 := optRulePair
    (inDict d "tax_amount" &&
      (isNoneV (dictGet d "tax_amount") || _is_valid_decimal (dictGet d "tax_amount")))
    (inDict d "tax_amount" && !isNoneV (dictGet d "tax_amount"))
    "tax_amount_numeric_valid" "tax_amount_numeric_invalid"
  Except.ok (pr1.1 ++ pr2.1 ++ pr3.1 ++ pr4.1 ++ pr5.1 ++ pf6.1,
             pr1.2 ++ pr2.2 ++ pr3.2 ++ pr4.2 ++ pr5.2 ++ pf6.2))))

/-- The body of the `try` block of the medical-bill balance check. -/
def medicalBalanceInner (tc ad ip : PyVal) : Except PyExc Bool := do
  let total_charges ← pyFloat tc
  let amount_due ← pyFloat ad
  let insurance_paid ← if isNoneV ip then pure (0 : ℚ) else pyFloat ip
  pure (decide (|total_charges - (amount_due + insurance_paid)| < 1/100))

/-- `validate_medical_bill`: service-start date rule, numeric rules for
`total_charges` / `amount_due`, and the optional balance cross-check
(silently skipped when its inputs are unsuitable); structured like
`validate_invoice`. -/
def validate_medical_bill (d : List (String × PyVal)) :
    Except PyExc (List String × List String) :=
  Except.bind
    (if inDict d "date_of_service_start" then
       _is_valid_date (dictGet d "date_of_service_start")
     else Except.ok false) (fun r1 =>
  Except.bind
    (if (inDict d "total_charges" && _is_valid_decimal (dictGet d "total_charges")) &&
        (inDict d "amount_due" && _is_valid_decimal (dictGet d "amount_due")) &&
        inDict d "insurance_paid" &&
        (isNoneV (dictGet d "insurance_paid") ||
          _is_valid_decimal (dictGet d "insurance_paid")) then
       match medicalBalanceInner (dictGet d "total_charges") (dictGet d "amount_due")
           (dictGet d "insurance_paid") with
       | Except.ok true =>
         Except.ok ((["charges_balance_check_valid"] : List String), ([] : List String))
       | Except.ok false => Except.ok ([], ["charges_balance_check_mismatch"])
       | Except.error PyExc.valueError =>
         Except.ok ([], ["charges_balance_check_failed_parsing"])
       | Except.error PyExc.typeError =>
         Except.ok ([], ["charges_balance_check_failed_parsing"])
       | Except.error e => Except.error e
     else Except.ok ([], [])) (fun pf4 =>
  let pr1 := rulePair r1 "service_start_date_format_valid" "service_start_date_format_invalid"
  let pr2 := rulePair (inDict d "total_charges" && _is_valid_decimal (dictGet d "total_charges"))
    "total_charges_numeric_valid" "total_charges_numeric_invalid"
  let pr3 := rulePair (inDict d "amount_due" && _is_valid_decimal (dictGet d "amount_due"))
    "amount_due_numeric_valid" "amount_due_numeric_invalid"
  Except.ok (pr1.1 ++ pr2.1 ++ pr3.1 ++ pf4.1, pr1.2 ++ pr2.2 ++ pr3.2 ++ pf4.2)))

/-- The per-medication rule block of `validate_prescription` for
medication index `i`: presence (truthiness) of `drug_name`, `dosage` and
`frequency`, each `.get` raising `AttributeError` on a non-dict
element. -/
def medRules (i : ℕ) (med : PyVal) : Except PyExc (List String × List String) :=
  Except.bind (pyDictGetAttr med "drug_name") (fun dn =>
  Except.bind (pyDictGetAttr med "dosage") (fun ds =>
  Except.bind (pyDictGetAttr med "frequency") (fun fr =>
  let prd := rulePair (pyTruthy dn)
    ("medication_" ++ toString i ++ "_drug_name_present")
    ("medication_" ++ toString i ++ "_drug_name_missing")
  let prs := rulePair (pyTruthy ds)
    ("medication_" ++ toString i ++ "_dosage_present")
    ("medication_" ++ toString i ++ "_dosage_missing")
  let prf := rulePair (pyTruthy fr)
    ("medication_" ++ toString i ++ "_frequency_present")
    ("medication_" ++ toString i ++ "_frequency_missing")
  Except.ok (prd.1 ++ prs.1 ++ prf.1, prd.2 ++ prs.2 ++ prf.2))))

/-- The `medications` list, at call sites guarded by an
`isinstance(..., list)` test. -/
def medsListOf (d : List (String × PyVal)) : List PyVal :=
  match dictGet d "medications" with
  | PyVal.list l => l
  | _ => []

/-- `validate_prescription`: prescription-date rule, non-empty-
medications rule, and the per-medication key checks. -/
def validate_prescription (d : List (String × PyVal)) :
    Except PyExc (List String × List String) :=
  Except.bind
    (if inDict d "prescription_date" then
       _is_valid_date (dictGet d "prescription_date")
     else Except.ok false) (fun r1 =>
  Except.bind
    (if inDict d "medications" && isListV (dictGet d "medications") then
       Except.bind ((medsListOf d).enum.mapM (fun im => medRules im.1 im.2)) (fun rs =>
         Except.ok ((rs.map Prod.fst).flatten, (rs.map Prod.snd).flatten))
     else Except.ok ([], [])) (fun pf3 =>
  let pr1 := rulePair r1 "prescription_date_format_valid" "prescription_date_format_invalid"
  let pr2 := rulePair
    (inDict d "medications" && isListV (dictGet d "medications") &&
      pyTruthy (dictGet d "medications"))
    "at_least_one_medication_listed" "no_medication_listed"
  Except.ok (pr1.1 ++ pr2.1 ++ pf3.1, pr1.2 ++ pr2.2 ++ pf3.2)))

/-- `run_validation`: dispatch on the document type, fall back to a
single `no_validation_rules_for_type_<type>` failure, and attach the
note summarising the failure count. -/
def run_validation (doc_type : String) (extracted_data : List (String × PyVal)) :
    Except PyExc QaResults :=
  Except.bind
    (if doc_type = "invoice" then validate_invoice extracted_data
     else if doc_type = "medical_bill" then validate_medical_bill extracted_data
     else if doc_type = "prescription" then validate_prescription extracted_data
     else Except.ok ([], ["no_validation_rules_for_type_" ++ doc_type]))
    (fun pf =>
      Except.ok
        { passed_rules := pf.1
          failed_rules := pf.2
          notes :=
            if pf.2.isEmpty then "All primary validation rules passed."
            else toString pf.2.length ++ " validation rule(s) failed." })

/-!
## The agent core (src/agent/core.py)
-/

/-- The `{text, word_boxes}` payload returned by `process_document`. -/
structure OcrData where
  text : String
  word_boxes : List WordBox
deriving DecidableEq, Repr

/-- The final output dictionary assembled by `run_extraction`. -/
structure AgentOutput where
  doc_type : String
  fields : List FieldRecord
  overall_confidence : ℚ
  qa : QaResults
deriving DecidableEq, Repr

/-- `_create_error_output`: the standardized error report. -/
def _create_error_output (message error_code : String) : AgentOutput :=
  { doc_type := "error"
    fields := []
    overall_confidence := 0
    qa := { passed_rules := [], failed_rules := [error_code], notes := message } }

/-- core.py's own `_find_bbox_for_value` (distinct from the scorer's):
past the empty-value/empty-boxes guard its body evaluates `re.sub`, but
core.py never imports `re`, so any such call raises `NameError`. -/
def coreFindBbox (value : String) (word_boxes : List WordBox) :
    Except String (Option SourceInfo) :=
  if value.isEmpty || word_boxes.isEmpty then Except.ok Option.none
  else Except.error "NameError: name re is not defined"

/-- One `ExtractedField(...)` record built by `_format_extracted_data`,
with the placeholder confidence 0.5. -/
def coreFormatField (field_name : String) (v : PyVal) (word_boxes : List WordBox) :
    Except String FieldRecord := do
  let bb ← coreFindBbox (pyStr v) word_boxes
  pure { name := field_name
         value := pyStr v
         confidence := 1/2
         source := bb }

/-- `_format_extracted_data`: the same top-level / list-of-dicts field
expansion as `calculate_confidence_scores`, with placeholder
confidences. -/
def _format_extracted_data (extracted_data : List (String × PyVal))
    (word_boxes : List WordBox) : Except String (List FieldRecord) := do
  let parts ← extracted_data.mapM (fun kv =>
    match kv.2 with
    | PyVal.list items =>
      if items.all isDictV then do
        let sub ← items.enum.mapM (fun iitem =>
          match iitem.2 with
          | PyVal.dict entries =>
            entries.mapM (fun skv =>
              coreFormatField (kv.1 ++ "." ++ toString iitem.1 ++ "." ++ skv.1)
                skv.2 word_boxes)
          | _ => pure [])
        pure sub.flatten
      else do
        let f ← coreFormatField kv.1 kv.2 word_boxes
        pure [f]
    | _ => do
      let f ← coreFormatField kv.1 kv.2 word_boxes
      pure [f])
  pure parts.flatten

/-- `DocumentExtractionAgent.run_extraction`, with the external
collaborators abstracted as parameters: `ocr` is the outcome of
`process_document` (raised exception text, or the `{text, word_boxes}`
payload), `classify` the label returned by `classify_document_type`, and
`extract` the outcome of `extract_document_data` followed by pydantic
schema validation.  The modelled failure branches all *return* a
structured error output; the success path itself can raise (through the
`re`-less `_find_bbox_for_value`), hence the `Except` result. -/
def run_extraction (ocr : Except String OcrData) (classify : String → String)
    (extract : String → Except String (List (String × PyVal))) :
    Except String AgentOutput :=
  match ocr with
  | Except.error e =>
    Except.ok (_create_error_output ("Error during OCR processing: " ++ e) "ocr_error")
  | Except.ok document_data =>
    if document_data.text = "" then
      Except.ok (_create_error_output "OCR failed to extract text." "ocr_failed")
    else
      let detected_doc_type := classify document_data.text
      if detected_doc_type = "unknown" then
        Except.ok (_create_error_output "Could not classify document type."
          "classification_failed")
      else if detected_doc_type ≠ "invoice" ∧ detected_doc_type ≠ "medical_bill" ∧
          detected_doc_type ≠ "prescription" then
        Except.ok (_create_error_output
          ("No schema defined for document type: " ++ detected_doc_type) "schema_missing")
      else
        match extract document_data.text with
        | Except.error e =>
          Except.ok (_create_error_output
            ("Error during data extraction or schema validation: " ++ e) "extraction_error")
        | Except.ok extracted_raw_data =>
          match _format_extracted_data extracted_raw_data document_data.word_boxes with
          | Except.error e => Except.error e
          | Except.ok fields_with_confidence =>
            Except.ok
              { doc_type := detected_doc_type
                fields := fields_with_confidence
                overall_confidence := 0
                qa := { passed_rules := [], failed_rules := [],
                        notes := "Validation not yet fully implemented." } }

/-!
## Shape predicates and helper values for the validation claims
-/

/-- A present field `k` holds a string, so `_is_valid_date` cannot raise
`TypeError` on it. -/
def dateFieldOk (d : List (String × PyVal)) (k : String) : Prop :=
  ∀ v, assocLookup d k = Option.some v → ∃ s, v = PyVal.str s

/-- `due_date` reaches `_is_valid_date` only when truthy, so only a
truthy non-string value can raise. -/
def dueDateOk (d : List (String × PyVal)) : Prop :=
  ∀ v, assocLookup d "due_date" = Option.some v → pyTruthy v = true →
    ∃ s, v = PyVal.str s

/-- Shapes of a `line_items` value whose iteration inside the invoice sum
check cannot raise `AttributeError`: a list of dicts, an empty
string/dict, or a non-iterable (whose `TypeError` the rule catches). -/
def lineItemsElemsOk : PyVal → Prop
  | PyVal.list l => ∀ x ∈ l, ∃ e, x = PyVal.dict e
  | PyVal.str s => s = ""
  | PyVal.dict e => e = []
  | _ => True

/-- Inputs on which `validate_invoice` cannot raise. -/
def wellShapedInvoice (d : List (String × PyVal)) : Prop :=
  dateFieldOk d "invoice_date" ∧ dueDateOk d ∧
    (inDict d "total_amount" = true → inDict d "line_items" = true →
      lineItemsElemsOk (dictGet d "line_items"))

/-- Inputs on which `validate_medical_bill` cannot raise. -/
def wellShapedMedicalBill (d : List (String × PyVal)) : Prop :=
  dateFieldOk d "date_of_service_start"

/-- Inputs on which `validate_prescription` cannot raise. -/
def wellShapedPrescription (d : List (String × PyVal)) : Prop :=
  dateFieldOk d "prescription_date" ∧
    (∀ l, dictGet d "medications" = PyVal.list l → ∀ x ∈ l, ∃ e, x = PyVal.dict e)

/-- The `item.get('line_total')` values of a list of line items (the
items must be dicts for `.get` not to raise). -/
def lineTotalsOf (l : List PyVal) : List PyVal :=
  l.map (fun item =>
    match item with
    | PyVal.dict e => (assocLookup e "line_total").getD PyVal.none
    | _ => PyVal.none)

/-- The sum of the parseable line totals, exactly as accumulated inside
the invoice sum check. -/
def parseableLineSum (l : List PyVal) : ℚ :=
  ((lineTotalsOf l).filter _is_valid_decimal).foldl
    (fun acc v => acc + ((pyFloat v).toOption.getD 0)) 0

/-!
## Concrete inputs used by witnesses and counterexamples
-/

/-- An empty validation result. -/
def qaEmpty : QaResults := { passed_rules := [], failed_rules := [], notes := "" }

/-- A sample OCR token matching the word "acme". -/
def wbAcme : WordBox :=
  { word := "acme", bbox := { x0 := 1, y0 := 2, x1 := 3, y1 := 4 },
    page_num := 1, conf := Option.some 90 }

/-- The unpenalized weighted mean in the spec's words (spec.md §4.5):
`sum(confidence*weight) / sum(weight)`, `0.0` with no fields.  Written
from the spec for comparison with `_calculate_overall_confidence`. -/
def specWeightedMean (fields : List FieldRecord) : ℚ :=
  if fields.isEmpty then 0
  else weightedSumOf fields / totalWeightOf fields

/-- Two default-weight fields whose weighted mean (0.805) is not a
two-decimal number. -/
def fieldsCex : List FieldRecord :=
  [{ name := "a", value := "x", confidence := 8/10, source := Option.none },
   { name := "b", value := "y", confidence := 81/100, source := Option.none }]

/-- Scenario B of the spec: total 100.00, line totals 50.00 and 50.00. -/
def invB : List (String × PyVal) :=
  [("total_amount", PyVal.num 100),
   ("line_items", PyVal.list [PyVal.dict [("line_total", PyVal.num 50)],
                              PyVal.dict [("line_total", PyVal.num 50)]])]

/-- Scenario C of the spec: total 100.00, one line total 40.00. -/
def invC : List (String × PyVal) :=
  [("total_amount", PyVal.num 100),
   ("line_items", PyVal.list [PyVal.dict [("line_total", PyVal.num 40)]])]

/-!
## Sanity checks of the embedding against the source
-/

example : containsSub "total_amount" "amount" = true := by decide
example : containsSub "total_amount" "date" = false := by decide

example :
    flattenEntries
      [("a", PyVal.str "x"),
       ("b", PyVal.list [PyVal.dict [("c", PyVal.num 5)]])] "" =
      [("a", "x"), ("b.0.c", "5")] := by decide

example : parseFloatQ "100.00" = Option.some 100 := by
  simp +decide [parseFloatQ, trimChars, splitDigits, digitsToNat]
example : parseFloatQ " -2.5e1 " = Option.some (-25) := by
  simp +decide [parseFloatQ, trimChars, splitDigits, digitsToNat]
  norm_num
example : parseFloatQ "abc" = Option.none := by
  simp +decide [parseFloatQ, trimChars, splitDigits, digitsToNat]
example : parseFloatQ "" = Option.none := by
  simp +decide [parseFloatQ, trimChars, splitDigits, digitsToNat]

example : dateOk "2024-01-31" = true := by decide
example : dateOk "2024-13-45" = false := by decide
example : dateOk "2024-02-30" = false := by decide
example : dateOk "2024-1-5" = true := by decide
example : dateOk "not-a-date" = false := by decide

example : wordTokens "Total: $123.45" = ["total", "123", "45"] := by decide

/-!
## Supporting lemmas
-/

theorem assocLookup_of_forall {α : Type} {P : α → Prop} :
    ∀ (l : List (String × α)) (k : String) (v : α),
      (∀ p ∈ l, P p.2) → assocLookup l k = Option.some v → P v := by
  intro l
  induction l with
  | nil => intro k v _ h; simp [assocLookup] at h
  | cons hd tl ih =>
    intro k v hall h
    obtain ⟨k0, v0⟩ := hd
    simp only [assocLookup] at h
    cases hrec : assocLookup tl k with
    | some r =>
      rw [hrec] at h
      simp only [Option.some.injEq] at h
      subst h
      exact ih k r (fun p hp => hall p (List.mem_cons_of_mem _ hp)) hrec
    | none =>
      rw [hrec] at h
      by_cases hk : k0 = k
      · rw [if_pos hk] at h
        obtain rfl : v0 = v := by simpa using h
        exact hall (k0, v0) (List.mem_cons_self _ _)
      · rw [if_neg hk] at h
        simp at h

theorem weightOf_bounds (name : String) : 1 ≤ weightOf name ∧ weightOf name ≤ 2 := by
  unfold weightOf
  cases hlk : assocLookup field_weights (topLevelName name) with
  | none => simp [hlk]
  | some v =>
    simp only [hlk, Option.getD_some]
    refine assocLookup_of_forall (P := fun q => 1 ≤ q ∧ q ≤ 2) field_weights
      (topLevelName name) v ?_ hlk
    intro p hp
    fin_cases hp <;> norm_num

theorem round2_nonneg {x : ℚ} (hx : 0 ≤ x) : 0 ≤ round2 x := by
  unfold round2
  have h : (0 : ℤ) ≤ round (100 * x) := by
    rw [round_eq]
    refine Int.floor_nonneg.mpr ?_
    linarith
  have h100 : (0 : ℚ) < 100 := by norm_num
  exact div_nonneg (by exact_mod_cast h) h100.le

theorem round2_le_one {x : ℚ} (hx : x ≤ 1) : round2 x ≤ 1 := by
  unfold round2
  have h : round (100 * x) ≤ 100 := by
    rw [round_eq]
    have h1 : ⌊100 * x + 1/2⌋ ≤ ⌊(201 : ℚ)/2⌋ := Int.floor_mono (by linarith)
    have h2 : ⌊(201 : ℚ)/2⌋ = 100 := by norm_num
    omega
  rw [div_le_one (by norm_num)]
  exact_mod_cast h

theorem abs_round2_sub (x : ℚ) : |round2 x - x| ≤ 1/200 := by
  have h := abs_sub_round (100 * x)
  rw [abs_sub_comm] at h
  have hxx : round2 x - x = ((round (100*x) : ℚ) - 100*x)/100 := by
    unfold round2; ring
  rw [hxx, abs_div]
  have h100 : |(100 : ℚ)| = 100 := by norm_num
  rw [h100]
  linarith

theorem foldl_min_le_init (l : List ℚ) (a : ℚ) : l.foldl min a ≤ a := by
  induction l generalizing a with
  | nil => simp
  | cons h t ih =>
    calc List.foldl min (min a h) t ≤ min a h := ih (min a h)
    _ ≤ a := min_le_left a h

theorem le_foldl_max_init (l : List ℚ) (a : ℚ) : a ≤ l.foldl max a := by
  induction l generalizing a with
  | nil => simp
  | cons h t ih =>
    calc a ≤ max a h := le_max_left a h
    _ ≤ List.foldl max (max a h) t := ih (max a h)

theorem validationScore_cases (field_name : String) (qa : QaResults) :
    validationScore field_name qa = 1/2 ∨ validationScore field_name qa = 1 := by
  unfold validationScore
  split
  · exact Or.inl rfl
  · split
    · exact Or.inl rfl
    · exact Or.inr rfl

theorem validationScore_bounds (field_name : String) (qa : QaResults) :
    0 ≤ validationScore field_name qa ∧ validationScore field_name qa ≤ 1 := by
  rcases validationScore_cases field_name qa with h | h <;> rw [h] <;> norm_num

theorem mean_bounds (l : List ℚ) (hne : l ≠ [])
    (h : ∀ x ∈ l, 0 ≤ x ∧ x ≤ 1) :
    0 ≤ l.sum / l.length ∧ l.sum / l.length ≤ 1 := by
  have hlen : (0 : ℚ) < l.length := by
    exact_mod_cast List.length_pos.mpr hne
  constructor
  · exact div_nonneg (List.sum_nonneg fun x hx => (h x hx).1) hlen.le
  · rw [div_le_one hlen]
    have hs := List.sum_le_card_nsmul l 1 fun x hx => (h x hx).2
    simpa using hs

theorem matchingConfs_bounds (value : String) (word_boxes : List WordBox)
    (hconf : ∀ b ∈ word_boxes, ∀ c, b.conf = Option.some c → 0 ≤ c ∧ c ≤ 100) :
    ∀ x ∈ matchingConfs value word_boxes, 0 ≤ x ∧ x ≤ 1 := by
  intro x hx
  unfold matchingConfs at hx
  rw [List.mem_filterMap] at hx
  obtain ⟨b, hb, hfb⟩ := hx
  split at hfb
  · have hx : (b.conf.getD 100) / 100 = x := by simpa using hfb
    subst hx
    cases hbc : b.conf with
    | none => norm_num [hbc]
    | some c =>
      have hcc := hconf b hb c hbc
      constructor
      · exact div_nonneg (by simpa using hcc.1) (by norm_num)
      · rw [div_le_one (by norm_num)]
        simpa using hcc.2
  · simp at hfb

theorem ocr_bounds (value : String) (word_boxes : List WordBox)
    (hconf : ∀ b ∈ word_boxes, ∀ c, b.conf = Option.some c → 0 ≤ c ∧ c ≤ 100) :
    0 ≤ _get_ocr_confidence_for_value value word_boxes ∧
      _get_ocr_confidence_for_value value word_boxes ≤ 1 := by
  unfold _get_ocr_confidence_for_value
  split
  · norm_num
  · split
    · norm_num
    · rename_i h1 h2
      exact mean_bounds _ (by simpa [List.isEmpty_iff] using h2)
        (matchingConfs_bounds value word_boxes hconf)

theorem composite_bounds (field_name field_value : String) (c : ℚ) (qa : QaResults)
    (word_boxes : List WordBox) (hc : 0 ≤ c ∧ c ≤ 1)
    (hconf : ∀ b ∈ word_boxes, ∀ cc, b.conf = Option.some cc → 0 ≤ cc ∧ cc ≤ 100) :
    0 ≤ _calculate_field_composite_confidence field_name field_value c qa word_boxes ∧
      _calculate_field_composite_confidence field_name field_value c qa word_boxes ≤ 1 := by
  have hv := validationScore_bounds field_name qa
  have ho := ocr_bounds field_value word_boxes hconf
  unfold _calculate_field_composite_confidence
  constructor <;> nlinarith [hc.1, hc.2, hv.1, hv.2, ho.1, ho.2]

theorem consistency_bounds (ed : List (String × PyVal))
    (runs : List (List (String × PyVal))) :
    ∀ p ∈ _calculate_llm_consistency ed runs, 0 ≤ p.2 ∧ p.2 ≤ 1 := by
  intro p hp
  unfold _calculate_llm_consistency at hp
  split at hp
  · simp at hp
  · rename_i hne
    rw [List.mem_map] at hp
    obtain ⟨pv, hpv, rfl⟩ := hp
    dsimp only
    have hlen : 0 < runs.length := by
      cases runs with
      | nil => simp at hne
      | cons a t => simp
    have hq : (0 : ℚ) < runs.length := by exact_mod_cast hlen
    constructor
    · exact div_nonneg (Nat.cast_nonneg _) hq.le
    · rw [div_le_one hq]
      have hcp := List.countP_le_length
        (fun o => decide (assocLookup o pv.1 = Option.some pv.2))
        (l := runs.map (fun o => flattenEntries o ""))
      have : ((runs.map (fun o => flattenEntries o "")).countP
          (fun o => decide (assocLookup o pv.1 = Option.some pv.2))) ≤ runs.length := by
        simpa using hcp
      exact_mod_cast this

theorem consistencyLookup_bounds (ed : List (String × PyVal))
    (runs : List (List (String × PyVal))) (name : String) :
    0 ≤ ((assocLookup (_calculate_llm_consistency ed runs) name).getD 0) ∧
      ((assocLookup (_calculate_llm_consistency ed runs) name).getD 0) ≤ 1 := by
  cases hlk : assocLookup (_calculate_llm_consistency ed runs) name with
  | none => simp
  | some v =>
    simp only [Option.getD_some]
    exact assocLookup_of_forall (P := fun q => 0 ≤ q ∧ q ≤ 1) _ name v
      (fun p hp => consistency_bounds ed runs p hp) hlk

theorem mkFieldRecord_conf_bounds (n : String) (v : PyVal)
    (ed : List (String × PyVal)) (runs : List (List (String × PyVal)))
    (qa : QaResults) (wb : List WordBox)
    (hconf : ∀ b ∈ wb, ∀ c, b.conf = Option.some c → 0 ≤ c ∧ c ≤ 100) :
    0 ≤ (mkFieldRecord n v (_calculate_llm_consistency ed runs) qa wb).confidence ∧
      (mkFieldRecord n v (_calculate_llm_consistency ed runs) qa wb).confidence ≤ 1 := by
  unfold mkFieldRecord
  dsimp only
  have hb := composite_bounds n (pyStr v)
    ((assocLookup (_calculate_llm_consistency ed runs) n).getD 0) qa wb
    (consistencyLookup_bounds ed runs n) hconf
  exact ⟨round2_nonneg hb.1, round2_le_one hb.2⟩

theorem totalWeightOf_pos (fields : List FieldRecord) (hne : fields ≠ []) :
    0 < totalWeightOf fields := by
  unfold totalWeightOf
  have hsum := List.card_nsmul_le_sum (fields.map fun f => weightOf f.name) 1
    (fun x hx => by
      rw [List.mem_map] at hx
      obtain ⟨f, _, rfl⟩ := hx
      exact (weightOf_bounds f.name).1)
  have hlen : 0 < fields.length := List.length_pos.mpr hne
  have hlen' : (1 : ℚ) ≤ fields.length := by exact_mod_cast hlen
  have : ((fields.map fun f => weightOf f.name).length : ℚ) •  (1 : ℚ) =
      (fields.length : ℚ) := by simp
  calc (0 : ℚ) < 1 := by norm_num
  _ ≤ (fields.length : ℚ) := hlen'
  _ ≤ (fields.map fun f => weightOf f.name).sum := by
      have := hsum
      simpa using this

theorem unpenalizedScore_bounds (fields : List FieldRecord)
    (hf : ∀ f ∈ fields, 0 ≤ f.confidence ∧ f.confidence ≤ 1) :
    0 ≤ unpenalizedScore fields ∧ unpenalizedScore fields ≤ 1 := by
  unfold unpenalizedScore
  split
  · rename_i htw
    constructor
    · apply div_nonneg _ htw.le
      unfold weightedSumOf
      apply List.sum_nonneg
      intro x hx
      rw [List.mem_map] at hx
      obtain ⟨f, hf', rfl⟩ := hx
      exact mul_nonneg (hf f hf').1 (by linarith [(weightOf_bounds f.name).1])
    · rw [div_le_one htw]
      unfold weightedSumOf totalWeightOf
      apply List.sum_le_sum
      intro f hf'
      have hw := weightOf_bounds f.name
      nlinarith [(hf f hf').2, (hf f hf').1, hw.1]
  · norm_num

theorem overall_bounds (fields : List FieldRecord) (qa : QaResults)
    (hf : ∀ f ∈ fields, 0 ≤ f.confidence ∧ f.confidence ≤ 1) :
    0 ≤ _calculate_overall_confidence fields qa ∧
      _calculate_overall_confidence fields qa ≤ 1 := by
  unfold _calculate_overall_confidence
  split
  · norm_num
  · have hup := unpenalizedScore_bounds fields hf
    split
    · rename_i hnf
      have hmin0 : 0 ≤ min ((1/10 : ℚ) * qa.failed_rules.length) (1/2) :=
        le_min (by positivity) (by norm_num)
      have hmin1 : min ((1/10 : ℚ) * qa.failed_rules.length) (1/2) ≤ 1/2 :=
        min_le_right _ _
      constructor
      · exact round2_nonneg (by nlinarith [hup.1])
      · exact round2_le_one (by nlinarith [hup.1, hup.2])
    · exact ⟨round2_nonneg hup.1, round2_le_one hup.2⟩

theorem mem_calculate_fields {ed : List (String × PyVal)} {qa : QaResults}
    {runs : List (List (String × PyVal))} {wb : List WordBox} {f : FieldRecord}
    (hf : f ∈ (calculate_confidence_scores ed qa runs wb).1) :
    ∃ n v, f = mkFieldRecord n v (_calculate_llm_consistency ed runs) qa wb := by
  simp only [calculate_confidence_scores] at hf
  rw [List.mem_flatMap] at hf
  obtain ⟨kv, hkv, hf⟩ := hf
  obtain ⟨k, v⟩ := kv
  cases v with
  | list items =>
    simp only at hf
    by_cases hall : items.all isDictV
    · rw [if_pos hall] at hf
      rw [List.mem_flatMap] at hf
      obtain ⟨ii, hii, hf⟩ := hf
      obtain ⟨i, item⟩ := ii
      cases item with
      | dict entries =>
        simp only at hf
        rw [List.mem_map] at hf
        obtain ⟨skv, hskv, rfl⟩ := hf
        exact ⟨_, _, rfl⟩
      | none => simp at hf
      | str s => simp at hf
      | num q => simp at hf
      | boolean b => simp at hf
      | list l => simp at hf
    · rw [if_neg hall] at hf
      rw [List.mem_singleton] at hf
      exact ⟨_, _, hf⟩
  | none =>
    rw [List.mem_singleton] at hf
    exact ⟨_, _, hf⟩
  | str s =>
    rw [List.mem_singleton] at hf
    exact ⟨_, _, hf⟩
  | num q =>
    rw [List.mem_singleton] at hf
    exact ⟨_, _, hf⟩
  | boolean b =>
    rw [List.mem_singleton] at hf
    exact ⟨_, _, hf⟩
  | dict entries =>
    rw [List.mem_singleton] at hf
    exact ⟨_, _, hf⟩

/-!
## Claim theorems
-/

/-- C1: the composite field confidence computed by
`_calculate_field_composite_confidence` equals the fixed weighted blend
`0.70 * consistency_score + 0.20 * validation_score + 0.10 *
ocr_quality_score`; and for the field `"total_amount"` with consistency
1.0, no validation failures, and exactly one matching OCR token with
`conf` 90 (confidence 0.9), the composite equals 0.99. -/
theorem composite_confidence_weighted_blend :
    (∀ (field_name field_value : String) (c : ℚ) (qa : QaResults) (wb : List WordBox),
      _calculate_field_composite_confidence field_name field_value c qa wb =
        (70/100 : ℚ) * c + (20/100) * validationScore field_name qa +
          (10/100) * _get_ocr_confidence_for_value field_value wb) ∧
    _calculate_field_composite_confidence "total_amount" "100.00" 1
      { passed_rules := ["total_amount_numeric_valid"], failed_rules := [], notes := "" }
      [{ word := "100.00", bbox := { x0 := 10, y0 := 20, x1 := 30, y1 := 40 },
         page_num := 1, conf := Option.some 90 }] = 99/100 := by
  refine ⟨fun _ _ _ _ _ => rfl, ?_⟩
  have hvs : validationScore "total_amount"
      { passed_rules := ["total_amount_numeric_valid"], failed_rules := [], notes := "" } = 1 := by
    simp +decide [validationScore, anyRuleContains]
  have hocr : _get_ocr_confidence_for_value "100.00"
      [{ word := "100.00", bbox := { x0 := 10, y0 := 20, x1 := 30, y1 := 40 },
         page_num := 1, conf := Option.some 90 }] = 9/10 := by
    unfold _get_ocr_confidence_for_value matchingConfs
    simp +decide [lowerStr, pyStrip, trimChars]
    norm_num
  unfold _calculate_field_composite_confidence
  rw [hvs, hocr]
  norm_num

/-- C3: for every input (with the OCR `conf` values on the 0-100 scale),
every per-field confidence returned by `calculate_confidence_scores` lies
in `[0, 1]`, and so does the overall document confidence. -/
theorem calculate_confidence_scores_bounded
    (ed : List (String × PyVal)) (qa : QaResults)
    (runs : List (List (String × PyVal))) (wb : List WordBox)
    (hconf : ∀ b ∈ wb, ∀ c, b.conf = Option.some c → 0 ≤ c ∧ c ≤ 100) :
    (∀ f ∈ (calculate_confidence_scores ed qa runs wb).1,
        0 ≤ f.confidence ∧ f.confidence ≤ 1) ∧
    0 ≤ (calculate_confidence_scores ed qa runs wb).2 ∧
      (calculate_confidence_scores ed qa runs wb).2 ≤ 1 := by
  have hfields : ∀ f ∈ (calculate_confidence_scores ed qa runs wb).1,
      0 ≤ f.confidence ∧ f.confidence ≤ 1 := by
    intro f hf
    obtain ⟨n, v, rfl⟩ := mem_calculate_fields hf
    exact mkFieldRecord_conf_bounds n v ed runs qa wb hconf
  refine ⟨hfields, ?_⟩
  have h2 : (calculate_confidence_scores ed qa runs wb).2 =
      _calculate_overall_confidence (calculate_confidence_scores ed qa runs wb).1 qa := rfl
  rw [h2]
  exact overall_bounds _ qa hfields

/-- Witness for C3 at a concrete input. -/
theorem calculate_confidence_scores_bounded_witness :
    (∀ b ∈ [wbAcme], ∀ c, b.conf = Option.some c → 0 ≤ c ∧ c ≤ 100) ∧
    (∀ f ∈ (calculate_confidence_scores [("vendor_name", PyVal.str "acme")]
        qaEmpty [] [wbAcme]).1, 0 ≤ f.confidence ∧ f.confidence ≤ 1) ∧
    0 ≤ (calculate_confidence_scores [("vendor_name", PyVal.str "acme")]
        qaEmpty [] [wbAcme]).2 ∧
      (calculate_confidence_scores [("vendor_name", PyVal.str "acme")]
        qaEmpty [] [wbAcme]).2 ≤ 1 := by
  have hc : ∀ b ∈ [wbAcme], ∀ c, b.conf = Option.some c → 0 ≤ c ∧ c ≤ 100 := by
    intro b hb c hbc
    rw [List.mem_singleton] at hb
    subst hb
    have : (90 : ℚ) = c := by simpa [wbAcme] using hbc
    subst this
    norm_num
  exact ⟨hc, calculate_confidence_scores_bounded _ _ _ _ hc⟩

/-- C10: every returned field record carries the raw composite rounded to
2 decimal places, the overall confidence is aggregated from these
already-rounded per-field values, and rounding moves any value by at most
0.005. -/
theorem confidence_rounding_semantics
    (ed : List (String × PyVal)) (qa : QaResults)
    (runs : List (List (String × PyVal))) (wb : List WordBox) :
    ((calculate_confidence_scores ed qa runs wb).2 =
      _calculate_overall_confidence (calculate_confidence_scores ed qa runs wb).1 qa) ∧
    (∀ f ∈ (calculate_confidence_scores ed qa runs wb).1,
      f.confidence = round2 (_calculate_field_composite_confidence f.name f.value
        ((assocLookup (_calculate_llm_consistency ed runs) f.name).getD 0) qa wb)) ∧
    (∀ x : ℚ, |round2 x - x| ≤ 1/200) := by
  refine ⟨rfl, ?_, abs_round2_sub⟩
  intro f hf
  obtain ⟨n, v, rfl⟩ := mem_calculate_fields hf
  rfl

/-- Witness for C10: the single record produced for a one-field document. -/
theorem confidence_rounding_semantics_witness :
    (mkFieldRecord "vendor_name" (PyVal.str "acme")
        (_calculate_llm_consistency [("vendor_name", PyVal.str "acme")] []) qaEmpty [wbAcme]
      ∈ (calculate_confidence_scores [("vendor_name", PyVal.str "acme")]
          qaEmpty [] [wbAcme]).1) ∧
    (mkFieldRecord "vendor_name" (PyVal.str "acme")
        (_calculate_llm_consistency [("vendor_name", PyVal.str "acme")] []) qaEmpty
        [wbAcme]).confidence =
      round2 (_calculate_field_composite_confidence
        (mkFieldRecord "vendor_name" (PyVal.str "acme")
          (_calculate_llm_consistency [("vendor_name", PyVal.str "acme")] []) qaEmpty
          [wbAcme]).name
        (mkFieldRecord "vendor_name" (PyVal.str "acme")
          (_calculate_llm_consistency [("vendor_name", PyVal.str "acme")] []) qaEmpty
          [wbAcme]).value
        ((assocLookup (_calculate_llm_consistency [("vendor_name", PyVal.str "acme")] [])
          (mkFieldRecord "vendor_name" (PyVal.str "acme")
            (_calculate_llm_consistency [("vendor_name", PyVal.str "acme")] []) qaEmpty
            [wbAcme]).name).getD 0)
        qaEmpty [wbAcme]) := by
  have hm : mkFieldRecord "vendor_name" (PyVal.str "acme")
      (_calculate_llm_consistency [("vendor_name", PyVal.str "acme")] []) qaEmpty [wbAcme]
      ∈ (calculate_confidence_scores [("vendor_name", PyVal.str "acme")]
          qaEmpty [] [wbAcme]).1 := by
    have hl : (calculate_confidence_scores [("vendor_name", PyVal.str "acme")]
        qaEmpty [] [wbAcme]).1 =
        [mkFieldRecord "vendor_name" (PyVal.str "acme")
          (_calculate_llm_consistency [("vendor_name", PyVal.str "acme")] []) qaEmpty
          [wbAcme]] := rfl
    rw [hl]
    exact List.mem_singleton.mpr rfl
  exact ⟨hm, (confidence_rounding_semantics [("vendor_name", PyVal.str "acme")]
    qaEmpty [] [wbAcme]).2.1 _ hm⟩

/-- C4: `_calculate_llm_consistency` returns the empty map with zero
repeated runs (and the composite calculator then substitutes 0.0
consistency for every field); otherwise it assigns to each flattened leaf
path of the primary tree the fraction of runs whose flattened value at
that path is string-equal to the primary value — 1.0 when every run
agrees, 0.0 when the path is absent from every run. -/
theorem llm_consistency_semantics :
    (∀ ed : List (String × PyVal), _calculate_llm_consistency ed [] = []) ∧
    (∀ (ed : List (String × PyVal)) (runs : List (List (String × PyVal))) (p v : String),
      runs ≠ [] → (p, v) ∈ flattenEntries ed "" →
      (p, (((runs.map (fun o => flattenEntries o "")).countP
          (fun o => decide (assocLookup o p = Option.some v))) : ℚ) / runs.length) ∈
        _calculate_llm_consistency ed runs) ∧
    (∀ (ed : List (String × PyVal)) (runs : List (List (String × PyVal))) (p v : String),
      runs ≠ [] → (p, v) ∈ flattenEntries ed "" →
      (∀ r ∈ runs, assocLookup (flattenEntries r "") p = Option.some v) →
      (p, (1 : ℚ)) ∈ _calculate_llm_consistency ed runs) ∧
    (∀ (ed : List (String × PyVal)) (runs : List (List (String × PyVal))) (p v : String),
      runs ≠ [] → (p, v) ∈ flattenEntries ed "" →
      (∀ r ∈ runs, assocLookup (flattenEntries r "") p = Option.none) →
      (p, (0 : ℚ)) ∈ _calculate_llm_consistency ed runs) ∧
    (∀ (ed : List (String × PyVal)) (qa : QaResults) (wb : List WordBox)
        (f : FieldRecord),
      f ∈ (calculate_confidence_scores ed qa [] wb).1 →
      f.confidence =
        round2 (_calculate_field_composite_confidence f.name f.value 0 qa wb)) := by
  have hmem : ∀ (ed : List (String × PyVal)) (runs : List (List (String × PyVal)))
      (p v : String), runs ≠ [] → (p, v) ∈ flattenEntries ed "" →
      (p, (((runs.map (fun o => flattenEntries o "")).countP
          (fun o => decide (assocLookup o p = Option.some v))) : ℚ) / runs.length) ∈
        _calculate_llm_consistency ed runs := by
    intro ed runs p v hne hmem
    unfold _calculate_llm_consistency
    rw [if_neg (by simpa [List.isEmpty_iff] using hne)]
    exact List.mem_map.mpr ⟨(p, v), hmem, rfl⟩
  refine ⟨fun ed => rfl, hmem, ?_, ?_, ?_⟩
  · intro ed runs p v hne hm hall
    have h := hmem ed runs p v hne hm
    have hcount : ((runs.map (fun o => flattenEntries o "")).countP
        (fun o => decide (assocLookup o p = Option.some v))) = runs.length := by
      have : ∀ o ∈ runs.map (fun o => flattenEntries o ""),
          (fun o => decide (assocLookup o p = Option.some v)) o = true := by
        intro o ho
        rw [List.mem_map] at ho
        obtain ⟨r, hr, rfl⟩ := ho
        simpa using hall r hr
      rw [List.countP_eq_length.mpr this, List.length_map]
    rw [hcount] at h
    have hq : (runs.length : ℚ) ≠ 0 := by
      have : 0 < runs.length := List.length_pos.mpr hne
      exact_mod_cast this.ne'
    rwa [div_self hq] at h
  · intro ed runs p v hne hm hall
    have h := hmem ed runs p v hne hm
    have hcount : ((runs.map (fun o => flattenEntries o "")).countP
        (fun o => decide (assocLookup o p = Option.some v))) = 0 := by
      rw [List.countP_eq_zero]
      intro o ho
      rw [List.mem_map] at ho
      obtain ⟨r, hr, rfl⟩ := ho
      simp [hall r hr]
    rw [hcount] at h
    simpa using h
  · intro ed qa wb f hf
    obtain ⟨n, v, rfl⟩ := mem_calculate_fields hf
    rfl

/-- Witness for C4: two identical repeated runs give consistency 1.0. -/
theorem llm_consistency_semantics_witness :
    (([[("a", PyVal.str "x")], [("a", PyVal.str "x")]] :
        List (List (String × PyVal))) ≠ [] ∧
      ("a", "x") ∈ flattenEntries [("a", PyVal.str "x")] "" ∧
      (∀ r ∈ ([[("a", PyVal.str "x")], [("a", PyVal.str "x")]] :
          List (List (String × PyVal))),
        assocLookup (flattenEntries r "") "a" = Option.some "x")) ∧
    ("a", (1 : ℚ)) ∈
      _calculate_llm_consistency [("a", PyVal.str "x")]
        [[("a", PyVal.str "x")], [("a", PyVal.str "x")]] := by
  refine ⟨⟨List.cons_ne_nil _ _, by decide, by decide⟩, ?_⟩
  exact llm_consistency_semantics.2.2.1 [("a", PyVal.str "x")]
    [[("a", PyVal.str "x")], [("a", PyVal.str "x")]] "a" "x"
    (List.cons_ne_nil _ _) (by decide) (by decide)

/-- C2 (counterexample): with no failed rules the overall confidence does
*not* equal the unpenalized weighted mean exactly — the code rounds it to
2 decimal places (mean 0.805 is reported as 0.81). -/
theorem overall_confidence_exact_mean_counterexample :
    ¬ _calculate_overall_confidence fieldsCex qaEmpty = specWeightedMean fieldsCex := by
  have hwa : weightOf "a" = 1 := by
    unfold weightOf
    have : assocLookup field_weights (topLevelName "a") = Option.none := by decide
    rw [this]
    rfl
  have hwb : weightOf "b" = 1 := by
    unfold weightOf
    have : assocLookup field_weights (topLevelName "b") = Option.none := by decide
    rw [this]
    rfl
  have hmean : specWeightedMean fieldsCex = 805/1000 := by
    unfold specWeightedMean weightedSumOf totalWeightOf fieldsCex
    simp [hwa, hwb]
    norm_num
  have hoverall : _calculate_overall_confidence fieldsCex qaEmpty = 81/100 := by
    unfold _calculate_overall_confidence unpenalizedScore weightedSumOf totalWeightOf
    simp only [fieldsCex, qaEmpty]
    simp [hwa, hwb]
    unfold round2
    rw [round_eq]
    norm_num
  rw [hmean, hoverall]
  norm_num

/-- C2 (amended): with an empty failed-rules list, the overall confidence
equals the unpenalized weighted mean *rounded to 2 decimal places*
(`sum(confidence*weight)/sum(weight)` with the fixed importance table
keyed by the portion of the name before the first dot, `0.0` with no
fields). -/
theorem overall_confidence_unpenalized (fields : List FieldRecord) (qa : QaResults)
    (hqa : qa.failed_rules = []) :
    _calculate_overall_confidence fields qa = round2 (specWeightedMean fields) := by
  unfold _calculate_overall_confidence specWeightedMean
  by_cases hfe : fields.isEmpty
  · rw [if_pos hfe, if_pos hfe]
    unfold round2
    norm_num
  · rw [if_neg hfe, if_neg hfe]
    rw [hqa]
    simp only [List.length_nil, gt_iff_lt, lt_self_iff_false, if_false]
    unfold unpenalizedScore
    rw [if_pos (totalWeightOf_pos fields (by simpa [List.isEmpty_iff] using hfe))]

/-- Witness for C2 (amended) at a concrete field list. -/
theorem overall_confidence_unpenalized_witness :
    qaEmpty.failed_rules = [] ∧
    _calculate_overall_confidence fieldsCex qaEmpty =
      round2 (specWeightedMean fieldsCex) :=
  ⟨rfl, overall_confidence_unpenalized fieldsCex qaEmpty rfl⟩

/-- C8: the validation-score component is 0.5 exactly when the field name
contains "date" and some date-format failure is recorded anywhere, or the
field name contains "amount"/"total"/"subtotal"/"charge" and some
numeric-format failure is recorded anywhere; otherwise it is 1.0, and it
never drops below 0.5. -/
theorem validation_score_demotion (field_name : String) (qa : QaResults) :
    (validationScore field_name qa = 1/2 ↔
      ((containsSub field_name "date" = true ∧
          anyRuleContains qa.failed_rules "format_invalid" = true) ∨
        ((containsSub field_name "amount" = true ∨
            containsSub field_name "total" = true ∨
            containsSub field_name "subtotal" = true ∨
            containsSub field_name "charge" = true) ∧
          anyRuleContains qa.failed_rules "numeric_invalid" = true))) ∧
    (validationScore field_name qa = 1/2 ∨ validationScore field_name qa = 1) := by
  refine ⟨?_, validationScore_cases field_name qa⟩
  unfold validationScore
  by_cases hn : (anyRuleContains qa.failed_rules "numeric_invalid" &&
      (containsSub field_name "amount" || containsSub field_name "total" ||
        containsSub field_name "subtotal" || containsSub field_name "charge")) = true
  · rw [if_pos hn]
    simp only [Bool.and_eq_true, Bool.or_eq_true] at hn
    exact iff_of_true rfl (Or.inr ⟨by tauto, hn.1⟩)
  · rw [if_neg hn]
    by_cases hd : (containsSub field_name "date" &&
        anyRuleContains qa.failed_rules "format_invalid") = true
    · rw [if_pos hd]
      simp only [Bool.and_eq_true] at hd
      exact iff_of_true rfl (Or.inl hd)
    · rw [if_neg hd]
      constructor
      · intro h
        norm_num at h
      · intro h
        exfalso
        rcases h with ⟨h1, h2⟩ | ⟨h1, h2⟩
        · exact hd (by simp only [Bool.and_eq_true]; exact ⟨h1, h2⟩)
        · exact hn (by
            simp only [Bool.and_eq_true, Bool.or_eq_true]
            exact ⟨h2, by tauto⟩)

/-- C5: `_find_bbox_for_value` returns nothing when no OCR token's
lower-cased text is in the value's word-token set; with matches it
returns the smallest box covering all matched tokens (min x0/y0, max
x1/y1) with the page of the first match in index order, and the returned
box satisfies `x0 ≤ x1` and `y0 ≤ y1` whenever every input box does. -/
theorem find_bbox_semantics (value : String) (word_boxes : List WordBox) :
    ((∀ b ∈ word_boxes, ¬ (wordTokens value).contains (lowerStr b.word) = true) →
      _find_bbox_for_value value word_boxes = Option.none) ∧
    (∀ m rest, matchingBoxes value word_boxes = m :: rest → value.isEmpty = false →
      _find_bbox_for_value value word_boxes =
        Option.some
          { page := m.page_num
            bbox :=
              { x0 := (rest.map (fun b => b.bbox.x0)).foldl min m.bbox.x0
                y0 := (rest.map (fun b => b.bbox.y0)).foldl min m.bbox.y0
                x1 := (rest.map (fun b => b.bbox.x1)).foldl max m.bbox.x1
                y1 := (rest.map (fun b => b.bbox.y1)).foldl max m.bbox.y1 } }) ∧
    (∀ si, _find_bbox_for_value value word_boxes = Option.some si →
      (∀ b ∈ word_boxes, b.bbox.x0 ≤ b.bbox.x1 ∧ b.bbox.y0 ≤ b.bbox.y1) →
      si.bbox.x0 ≤ si.bbox.x1 ∧ si.bbox.y0 ≤ si.bbox.y1) := by
  refine ⟨?_, ?_, ?_⟩
  · intro hnone
    have hmb : matchingBoxes value word_boxes = [] := by
      unfold matchingBoxes
      rw [List.filter_eq_nil_iff]
      intro b hb
      simpa using hnone b hb
    unfold _find_bbox_for_value
    split
    · rfl
    · rw [hmb]
  · intro m rest hmb hve
    have hwb : word_boxes.isEmpty = false := by
      rcases word_boxes with _ | ⟨b, t⟩
      · unfold matchingBoxes at hmb
        simp at hmb
      · rfl
    unfold _find_bbox_for_value
    rw [if_neg (by simp [hve, hwb])]
    rw [hmb]
  · intro si hsi hvalid
    unfold _find_bbox_for_value at hsi
    split at hsi
    · simp at hsi
    · rename_i hguard
      cases hmb : matchingBoxes value word_boxes with
      | nil =>
        rw [hmb] at hsi
        simp at hsi
      | cons m rest =>
        rw [hmb] at hsi
        simp only [Option.some.injEq] at hsi
        subst hsi
        have hmem : ∀ b ∈ m :: rest, b ∈ word_boxes := by
          intro b hb
          rw [← hmb] at hb
          exact List.mem_of_mem_filter hb
        have hm := hvalid m (hmem m (List.mem_cons_self _ _))
        constructor
        · calc (rest.map (fun b => b.bbox.x0)).foldl min m.bbox.x0 ≤ m.bbox.x0 :=
                foldl_min_le_init _ _
          _ ≤ m.bbox.x1 := hm.1
          _ ≤ (rest.map (fun b => b.bbox.x1)).foldl max m.bbox.x1 :=
                le_foldl_max_init _ _
        · calc (rest.map (fun b => b.bbox.y0)).foldl min m.bbox.y0 ≤ m.bbox.y0 :=
                foldl_min_le_init _ _
          _ ≤ m.bbox.y1 := hm.2
          _ ≤ (rest.map (fun b => b.bbox.y1)).foldl max m.bbox.y1 :=
                le_foldl_max_init _ _

/-- Witness for C5: one matching token yields its own box and page. -/
theorem find_bbox_semantics_witness :
    (matchingBoxes "acme" [wbAcme] = [wbAcme] ∧ ("acme" : String).isEmpty = false) ∧
    _find_bbox_for_value "acme" [wbAcme] =
      Option.some
        { page := wbAcme.page_num
          bbox :=
            { x0 := (([] : List WordBox).map (fun b => b.bbox.x0)).foldl min wbAcme.bbox.x0
              y0 := (([] : List WordBox).map (fun b => b.bbox.y0)).foldl min wbAcme.bbox.y0
              x1 := (([] : List WordBox).map (fun b => b.bbox.x1)).foldl max wbAcme.bbox.x1
              y1 := (([] : List WordBox).map (fun b => b.bbox.y1)).foldl max
                wbAcme.bbox.y1 } } := by
  have h1 : matchingBoxes "acme" [wbAcme] = [wbAcme] := by
    unfold matchingBoxes wbAcme
    simp +decide [wordTokens, wordRunsGo, lowerStr, isWordChar]
  refine ⟨⟨h1, rfl⟩, ?_⟩
  exact (find_bbox_semantics "acme" [wbAcme]).2.1 wbAcme [] h1 rfl

/-- C9: every modelled failure of OCR text extraction, classification, or
data extraction/schema validation makes `run_extraction` *return* a
structured error report with `doc_type = "error"`, empty fields, overall
confidence 0.0, empty passed rules, exactly one failed-rule error code,
and the human-readable message as the note. -/
theorem run_extraction_error_contract
    (ocr : Except String OcrData) (classify : String → String)
    (extract : String → Except String (List (String × PyVal))) :
    (∀ e, ocr = Except.error e →
      run_extraction ocr classify extract =
        Except.ok (_create_error_output ("Error during OCR processing: " ++ e)
          "ocr_error")) ∧
    (∀ dd, ocr = Except.ok dd → dd.text = "" →
      run_extraction ocr classify extract =
        Except.ok (_create_error_output "OCR failed to extract text." "ocr_failed")) ∧
    (∀ dd, ocr = Except.ok dd → dd.text ≠ "" → classify dd.text = "unknown" →
      run_extraction ocr classify extract =
        Except.ok (_create_error_output "Could not classify document type."
          "classification_failed")) ∧
    (∀ dd e, ocr = Except.ok dd → dd.text ≠ "" → classify dd.text ≠ "unknown" →
      (classify dd.text = "invoice" ∨ classify dd.text = "medical_bill" ∨
        classify dd.text = "prescription") →
      extract dd.text = Except.error e →
      run_extraction ocr classify extract =
        Except.ok (_create_error_output
          ("Error during data extraction or schema validation: " ++ e)
          "extraction_error")) ∧
    (∀ message error_code,
      (_create_error_output message error_code).doc_type = "error" ∧
      (_create_error_output message error_code).fields = [] ∧
      (_create_error_output message error_code).overall_confidence = 0 ∧
      (_create_error_output message error_code).qa.passed_rules = [] ∧
      (_create_error_output message error_code).qa.failed_rules = [error_code] ∧
      (_create_error_output message error_code).qa.notes = message) := by
  refine ⟨?_, ?_, ?_, ?_, fun message error_code => ⟨rfl, rfl, rfl, rfl, rfl, rfl⟩⟩
  · intro e he
    subst he
    rfl
  · intro dd hdd htext
    subst hdd
    unfold run_extraction
    dsimp only
    rw [if_pos htext]
  · intro dd hdd htext hcls
    subst hdd
    unfold run_extraction
    dsimp only
    rw [if_neg htext, if_pos hcls]
  · intro dd e hdd htext hcls hknown hext
    subst hdd
    unfold run_extraction
    dsimp only
    rw [if_neg htext, if_neg hcls]
    rw [if_neg (by
      intro hcon
      rcases hknown with h | h | h
      · exact hcon.1 h
      · exact hcon.2.1 h
      · exact hcon.2.2 h)]
    rw [hext]

/-- Witness for C9: a raised OCR exception is reported, not re-raised. -/
theorem run_extraction_error_contract_witness :
    ((Except.error "boom" : Except String OcrData) = Except.error "boom") ∧
    run_extraction (Except.error "boom") (fun _ => "unknown") (fun _ => Except.ok []) =
      Except.ok (_create_error_output ("Error during OCR processing: " ++ "boom")
        "ocr_error") :=
  ⟨rfl, (run_extraction_error_contract (Except.error "boom") (fun _ => "unknown")
    (fun _ => Except.ok [])).1 "boom" rfl⟩

theorem pyFloat_no_attr (v : PyVal) : pyFloat v ≠ Except.error PyExc.attributeError := by
  cases v with
  | str s => cases hp : parseFloatQ s <;> simp [pyFloat, hp]
  | none => simp [pyFloat]
  | num q => simp [pyFloat]
  | boolean b => simp [pyFloat]
  | list l => simp [pyFloat]
  | dict e => simp [pyFloat]

theorem pyFloat_ok_of_valid {v : PyVal} (h : _is_valid_decimal v = true) :
    ∃ q, pyFloat v = Except.ok q := by
  unfold _is_valid_decimal at h
  cases hp : pyFloat v with
  | ok q => exact ⟨q, rfl⟩
  | error e => rw [hp] at h; simp at h

theorem mapM_getAttr_dicts : ∀ l : List PyVal,
    (∀ x ∈ l, ∃ e, x = PyVal.dict e) →
    l.mapM (fun item => pyDictGetAttr item "line_total") =
      Except.ok (lineTotalsOf l) := by
  intro l
  induction l with
  | nil => intro _; rfl
  | cons x t ih =>
    intro h
    obtain ⟨e, he⟩ := h x (List.mem_cons_self _ _)
    subst he
    rw [List.mapM_cons, ih (fun y hy => h y (List.mem_cons_of_mem _ hy))]
    rfl

theorem invoiceSumInner_dicts (tv : PyVal) (t : ℚ) (htv : pyFloat tv = Except.ok t)
    (l : List PyVal) (hd : ∀ x ∈ l, ∃ e, x = PyVal.dict e) :
    invoiceSumInner tv (PyVal.list l) =
      Except.ok (decide (|t - parseableLineSum l| < 1/100)) := by
  unfold invoiceSumInner
  rw [htv]
  simp only [Bind.bind, Except.bind, pyIter]
  rw [mapM_getAttr_dicts l hd]
  rfl

theorem invoiceSumInner_not_attr (tv li : PyVal) (hli : lineItemsElemsOk li) :
    invoiceSumInner tv li ≠ Except.error PyExc.attributeError := by
  cases htv : pyFloat tv with
  | error e =>
    have hne := pyFloat_no_attr tv
    rw [htv] at hne
    have hres : invoiceSumInner tv li = Except.error e := by
      unfold invoiceSumInner
      rw [htv]
      rfl
    rw [hres]
    intro hcon
    exact hne (by rw [Except.error.injEq] at hcon; rw [hcon])
  | ok t =>
    cases li with
    | list l =>
      rw [invoiceSumInner_dicts tv t htv l hli]
      simp
    | str s =>
      have hs : s = "" := hli
      subst hs
      have hres : invoiceSumInner tv (PyVal.str "") =
          Except.ok (decide (|t - 0| < 1/100)) := by
        unfold invoiceSumInner
        rw [htv]
        rfl
      rw [hres]
      simp
    | dict e =>
      have he : e = [] := hli
      subst he
      have hres : invoiceSumInner tv (PyVal.dict []) =
          Except.ok (decide (|t - 0| < 1/100)) := by
        unfold invoiceSumInner
        rw [htv]
        rfl
      rw [hres]
      simp
    | none =>
      have hres : invoiceSumInner tv PyVal.none = Except.error PyExc.typeError := by
        unfold invoiceSumInner
        rw [htv]
        rfl
      rw [hres]
      simp
    | num q =>
      have hres : invoiceSumInner tv (PyVal.num q) = Except.error PyExc.typeError := by
        unfold invoiceSumInner
        rw [htv]
        rfl
      rw [hres]
      simp
    | boolean b =>
      have hres : invoiceSumInner tv (PyVal.boolean b) =
          Except.error PyExc.typeError := by
        unfold invoiceSumInner
        rw [htv]
        rfl
      rw [hres]
      simp

theorem medicalBalanceInner_not_attr (tc ad ip : PyVal) :
    medicalBalanceInner tc ad ip ≠ Except.error PyExc.attributeError := by
  cases htc : pyFloat tc with
  | error e =>
    have hne := pyFloat_no_attr tc
    rw [htc] at hne
    have hres : medicalBalanceInner tc ad ip = Except.error e := by
      unfold medicalBalanceInner
      rw [htc]
      rfl
    rw [hres]
    intro hcon
    exact hne (by rw [Except.error.injEq] at hcon; rw [hcon])
  | ok t1 =>
    cases had : pyFloat ad with
    | error e =>
      have hne := pyFloat_no_attr ad
      rw [had] at hne
      have hres : medicalBalanceInner tc ad ip = Except.error e := by
        unfold medicalBalanceInner
        rw [htc, had]
        rfl
      rw [hres]
      intro hcon
      exact hne (by rw [Except.error.injEq] at hcon; rw [hcon])
    | ok t2 =>
      cases hni : isNoneV ip with
      | true =>
        have hres : medicalBalanceInner tc ad ip =
            Except.ok (decide (|t1 - (t2 + 0)| < 1/100)) := by
          unfold medicalBalanceInner
          rw [htc, had, hni]
          rfl
        rw [hres]
        simp
      | false =>
        cases hip : pyFloat ip with
        | error e =>
          have hne := pyFloat_no_attr ip
          rw [hip] at hne
          have hres : medicalBalanceInner tc ad ip = Except.error e := by
            unfold medicalBalanceInner
            rw [htc, had, hni, hip]
            rfl
          rw [hres]
          intro hcon
          exact hne (by rw [Except.error.injEq] at hcon; rw [hcon])
        | ok t3 =>
          have hres : medicalBalanceInner tc ad ip =
              Except.ok (decide (|t1 - (t2 + t3)| < 1/100)) := by
            unfold medicalBalanceInner
            rw [htc, had, hni, hip]
            rfl
          rw [hres]
          simp

theorem mapM_medRules_ok : ∀ l : List (ℕ × PyVal),
    (∀ im ∈ l, ∃ e, im.2 = PyVal.dict e) →
    ∃ rs, l.mapM (fun im => medRules im.1 im.2) = Except.ok rs := by
  intro l
  induction l with
  | nil => exact fun _ => ⟨[], rfl⟩
  | cons x t ih =>
    intro h
    obtain ⟨e, he⟩ := h x (List.mem_cons_self _ _)
    obtain ⟨rs, hrs⟩ := ih (fun y hy => h y (List.mem_cons_of_mem _ hy))
    obtain ⟨r, hr⟩ : ∃ r, medRules x.1 x.2 = Except.ok r := by
      rw [he]
      exact ⟨_, rfl⟩
    refine ⟨r :: rs, ?_⟩
    rw [List.mapM_cons, hr, hrs]
    rfl

theorem validate_invoice_ok (d : List (String × PyVal)) (h : wellShapedInvoice d) :
    ∃ pf, validate_invoice d = Except.ok pf ∧
      (inDict d "invoice_date" = false → "invoice_date_format_invalid" ∈ pf.2) ∧
      ((inDict d "total_amount" && inDict d "line_items") = false →
        "line_items_or_total_missing_for_sum_check" ∈ pf.2) := by
  obtain ⟨hd1, hd2, hd3⟩ := h
  have h1 : ∃ b1, (if inDict d "invoice_date" then
        _is_valid_date (dictGet d "invoice_date") else Except.ok false) = Except.ok b1 ∧
      (inDict d "invoice_date" = false → b1 = false) := by
    by_cases hk : inDict d "invoice_date" = true
    · rw [if_pos hk]
      unfold inDict at hk
      rw [Option.isSome_iff_exists] at hk
      obtain ⟨v, hv⟩ := hk
      obtain ⟨s, rfl⟩ := hd1 v hv
      have hg : dictGet d "invoice_date" = PyVal.str s := by
        unfold dictGet
        rw [hv]
        rfl
      rw [hg]
      refine ⟨dateOk s, rfl, fun hf => ?_⟩
      unfold inDict at hf
      rw [hv] at hf
      simp at hf
    · rw [if_neg hk]
      exact ⟨false, rfl, fun _ => rfl⟩
  obtain ⟨b1, hb1, hb1f⟩ := h1
  have h2 : ∃ b2, (if inDict d "due_date" && pyTruthy (dictGet d "due_date") then
        _is_valid_date (dictGet d "due_date") else Except.ok false) = Except.ok b2 := by
    by_cases hk : (inDict d "due_date" && pyTruthy (dictGet d "due_date")) = true
    · rw [if_pos hk]
      rw [Bool.and_eq_true] at hk
      have hk1 := hk.1
      have hk2 := hk.2
      unfold inDict at hk1
      rw [Option.isSome_iff_exists] at hk1
      obtain ⟨v, hv⟩ := hk1
      have hg : dictGet d "due_date" = v := by
        unfold dictGet
        rw [hv]
        rfl
      rw [hg] at hk2 ⊢
      obtain ⟨s, rfl⟩ := hd2 v hv hk2
      exact ⟨dateOk s, rfl⟩
    · rw [if_neg hk]
      exact ⟨false, rfl⟩
  obtain ⟨b2, hb2⟩ := h2
  have h6 : ∃ pf6 : List String × List String,
      (if inDict d "total_amount" && inDict d "line_items" then
        match invoiceSumInner (dictGet d "total_amount") (dictGet d "line_items") with
        | Except.ok true =>
          Except.ok ((["line_items_sum_matches_total"] : List String), ([] : List String))
        | Except.ok false => Except.ok ([], ["line_items_sum_mismatch"])
        | Except.error PyExc.valueError =>
          Except.ok ([], ["line_items_sum_check_failed_parsing"])
        | Except.error PyExc.typeError =>
          Except.ok ([], ["line_items_sum_check_failed_parsing"])
        | Except.error e => Except.error e
      else Except.ok ([], ["line_items_or_total_missing_for_sum_check"])) = Except.ok pf6 ∧
      ((inDict d "total_amount" && inDict d "line_items") = false →
        "line_items_or_total_missing_for_sum_check" ∈ pf6.2) := by
    by_cases hk : (inDict d "total_amount" && inDict d "line_items") = true
    · rw [if_pos hk]
      have hattr := invoiceSumInner_not_attr (dictGet d "total_amount")
        (dictGet d "line_items")
        (hd3 (Bool.and_eq_true _ _ |>.mp hk).1 (Bool.and_eq_true _ _ |>.mp hk).2)
      cases hres : invoiceSumInner (dictGet d "total_amount") (dictGet d "line_items") with
      | ok b =>
        cases b with
        | true => exact ⟨_, rfl, fun hf => absurd hk (by simp [hf])⟩
        | false => exact ⟨_, rfl, fun hf => absurd hk (by simp [hf])⟩
      | error e =>
        cases e with
        | valueError => exact ⟨_, rfl, fun hf => absurd hk (by simp [hf])⟩
        | typeError => exact ⟨_, rfl, fun hf => absurd hk (by simp [hf])⟩
        | attributeError => exact absurd hres hattr
    · rw [if_neg hk]
      exact ⟨([], ["line_items_or_total_missing_for_sum_check"]), rfl, fun _ => by simp⟩
  obtain ⟨pf6, hpf6, hpf6m⟩ := h6
  obtain ⟨p6, f6⟩ := pf6
  unfold validate_invoice
  rw [hb1, hb2, hpf6]
  refine ⟨_, rfl, ?_, ?_⟩
  · intro hf
    have hb1' := hb1f hf
    subst hb1'
    simp [rulePair, List.mem_append]
  · intro hf
    have hm := hpf6m hf
    simp only at hm
    simp [List.mem_append, hm]

theorem validate_medical_bill_ok (d : List (String × PyVal))
    (h : wellShapedMedicalBill d) :
    ∃ pf, validate_medical_bill d = Except.ok pf := by
  have h1 : ∃ b1, (if inDict d "date_of_service_start" then
        _is_valid_date (dictGet d "date_of_service_start")
      else Except.ok false) = Except.ok b1 := by
    by_cases hk : inDict d "date_of_service_start" = true
    · rw [if_pos hk]
      unfold inDict at hk
      rw [Option.isSome_iff_exists] at hk
      obtain ⟨v, hv⟩ := hk
      obtain ⟨s, rfl⟩ := h v hv
      have hg : dictGet d "date_of_service_start" = PyVal.str s := by
        unfold dictGet
        rw [hv]
        rfl
      rw [hg]
      exact ⟨dateOk s, rfl⟩
    · rw [if_neg hk]
      exact ⟨false, rfl⟩
  obtain ⟨b1, hb1⟩ := h1
  have h4 : ∃ pf4 : List String × List String,
      (if (inDict d "total_charges" && _is_valid_decimal (dictGet d "total_charges")) &&
          (inDict d "amount_due" && _is_valid_decimal (dictGet d "amount_due")) &&
          inDict d "insurance_paid" &&
          (isNoneV (dictGet d "insurance_paid") ||
            _is_valid_decimal (dictGet d "insurance_paid")) then
        match medicalBalanceInner (dictGet d "total_charges") (dictGet d "amount_due")
            (dictGet d "insurance_paid") with
        | Except.ok true =>
          Except.ok ((["charges_balance_check_valid"] : List String), ([] : List String))
        | Except.ok false => Except.ok ([], ["charges_balance_check_mismatch"])
        | Except.error PyExc.valueError =>
          Except.ok ([], ["charges_balance_check_failed_parsing"])
        | Except.error PyExc.typeError =>
          Except.ok ([], ["charges_balance_check_failed_parsing"])
        | Except.error e => Except.error e
      else Except.ok ([], [])) = Except.ok pf4 := by
    split
    · have hattr := medicalBalanceInner_not_attr (dictGet d "total_charges")
        (dictGet d "amount_due") (dictGet d "insurance_paid")
      cases hres : medicalBalanceInner (dictGet d "total_charges") (dictGet d "amount_due")
          (dictGet d "insurance_paid") with
      | ok b =>
        cases b with
        | true => exact ⟨_, rfl⟩
        | false => exact ⟨_, rfl⟩
      | error e =>
        cases e with
        | valueError => exact ⟨_, rfl⟩
        | typeError => exact ⟨_, rfl⟩
        | attributeError => exact absurd hres hattr
    · exact ⟨_, rfl⟩
  obtain ⟨pf4, hpf4⟩ := h4
  unfold validate_medical_bill
  rw [hb1, hpf4]
  exact ⟨_, rfl⟩

theorem validate_prescription_ok (d : List (String × PyVal))
    (h : wellShapedPrescription d) :
    ∃ pf, validate_prescription d = Except.ok pf := by
  obtain ⟨hd1, hd2⟩ := h
  have h1 : ∃ b1, (if inDict d "prescription_date" then
        _is_valid_date (dictGet d "prescription_date")
      else Except.ok false) = Except.ok b1 := by
    by_cases hk : inDict d "prescription_date" = true
    · rw [if_pos hk]
      unfold inDict at hk
      rw [Option.isSome_iff_exists] at hk
      obtain ⟨v, hv⟩ := hk
      obtain ⟨s, rfl⟩ := hd1 v hv
      have hg : dictGet d "prescription_date" = PyVal.str s := by
        unfold dictGet
        rw [hv]
        rfl
      rw [hg]
      exact ⟨dateOk s, rfl⟩
    · rw [if_neg hk]
      exact ⟨false, rfl⟩
  obtain ⟨b1, hb1⟩ := h1
  have h3 : ∃ pf3 : List String × List String,
      (if inDict d "medications" && isListV (dictGet d "medications") then
        Except.bind ((medsListOf d).enum.mapM (fun im => medRules im.1 im.2)) (fun rs =>
          Except.ok ((rs.map Prod.fst).flatten, (rs.map Prod.snd).flatten))
      else Except.ok ([], [])) = Except.ok pf3 := by
    split
    · rename_i hk
      rw [Bool.and_eq_true] at hk
      have hlist : ∃ l, dictGet d "medications" = PyVal.list l := by
        cases hm : dictGet d "medications" with
        | list l => exact ⟨l, rfl⟩
        | none => rw [hm] at hk; simp [isListV] at hk
        | str s => rw [hm] at hk; simp [isListV] at hk
        | num q => rw [hm] at hk; simp [isListV] at hk
        | boolean b => rw [hm] at hk; simp [isListV] at hk
        | dict e => rw [hm] at hk; simp [isListV] at hk
      obtain ⟨l, hl⟩ := hlist
      have hml : medsListOf d = l := by
        unfold medsListOf
        rw [hl]
      obtain ⟨rs, hrs⟩ := mapM_medRules_ok ((medsListOf d).enum) (by
        intro im him
        have h2 := List.snd_mem_of_mem_enumFrom him
        rw [hml] at h2
        exact hd2 l hl im.2 h2)
      rw [hrs]
      exact ⟨_, rfl⟩
    · exact ⟨_, rfl⟩
  obtain ⟨pf3, hpf3⟩ := h3
  unfold validate_prescription
  rw [hb1, hpf3]
  exact ⟨_, rfl⟩

/-- C6 (counterexample): the claim "run_validation never raises, for any
extracted_data including None values" is false — an invoice whose
`invoice_date` is `None` reaches `datetime.strptime(None, ...)`, whose
`TypeError` the `except ValueError` in `_is_valid_date` does not catch,
so `run_validation` raises. -/
theorem run_validation_raises_on_none_date :
    run_validation "invoice" [("invoice_date", PyVal.none)] =
      Except.error PyExc.typeError := by
  rfl

/-- C6 (amended): `run_validation` returns a result (with the
absent-or-malformed required inputs recorded as failed rules, and all
applicable rules run) for every input whose present date values are
strings (`due_date` only when truthy) and whose iterated list elements
are dicts; a `None` or non-string date value, or a non-dict element in an
iterated `line_items`/`medications` list, instead raises an uncaught
`TypeError`/`AttributeError`. -/
theorem run_validation_ok_on_wellshaped (doc_type : String)
    (d : List (String × PyVal))
    (hinv : doc_type = "invoice" → wellShapedInvoice d)
    (hmed : doc_type = "medical_bill" → wellShapedMedicalBill d)
    (hpre : doc_type = "prescription" → wellShapedPrescription d) :
    ∃ res, run_validation doc_type d = Except.ok res ∧
      (doc_type = "invoice" → inDict d "invoice_date" = false →
        "invoice_date_format_invalid" ∈ res.failed_rules) ∧
      (doc_type = "invoice" →
        (inDict d "total_amount" && inDict d "line_items") = false →
        "line_items_or_total_missing_for_sum_check" ∈ res.failed_rules) := by
  by_cases hi : doc_type = "invoice"
  · subst hi
    obtain ⟨pf, hpf, hA, hB⟩ := validate_invoice_ok d (hinv rfl)
    unfold run_validation
    rw [if_pos rfl, hpf]
    exact ⟨_, rfl, fun _ hf => hA hf, fun _ hf => hB hf⟩
  · by_cases hm : doc_type = "medical_bill"
    · subst hm
      obtain ⟨pf, hpf⟩ := validate_medical_bill_ok d (hmed rfl)
      unfold run_validation
      rw [if_neg hi, if_pos rfl, hpf]
      exact ⟨_, rfl, fun hc => absurd hc hi, fun hc => absurd hc hi⟩
    · by_cases hp : doc_type = "prescription"
      · subst hp
        obtain ⟨pf, hpf⟩ := validate_prescription_ok d (hpre rfl)
        unfold run_validation
        rw [if_neg hi, if_neg hm, if_pos rfl, hpf]
        exact ⟨_, rfl, fun hc => absurd hc hi, fun hc => absurd hc hi⟩
      · unfold run_validation
        rw [if_neg hi, if_neg hm, if_neg hp]
        exact ⟨_, rfl, fun hc => absurd hc hi, fun hc => absurd hc hi⟩

/-- Witness for C6 (amended): an empty invoice dict validates without
raising and records the missing inputs. -/
theorem run_validation_ok_on_wellshaped_witness :
    (("invoice" = "invoice" → wellShapedInvoice []) ∧
      ("invoice" = "medical_bill" → wellShapedMedicalBill []) ∧
      ("invoice" = "prescription" → wellShapedPrescription [])) ∧
    ∃ res, run_validation "invoice" [] = Except.ok res ∧
      ("invoice" = "invoice" → inDict [] "invoice_date" = false →
        "invoice_date_format_invalid" ∈ res.failed_rules) ∧
      ("invoice" = "invoice" →
        (inDict [] "total_amount" && inDict [] "line_items") = false →
        "line_items_or_total_missing_for_sum_check" ∈ res.failed_rules) := by
  have h1 : "invoice" = "invoice" → wellShapedInvoice [] := by
    intro _
    refine ⟨?_, ?_, ?_⟩
    · intro v hv
      simp [assocLookup] at hv
    · intro v hv
      simp [assocLookup] at hv
    · intro hc
      simp [inDict, assocLookup] at hc
  have h2 : "invoice" = "medical_bill" → wellShapedMedicalBill [] := by
    intro hc
    simp at hc
  have h3 : "invoice" = "prescription" → wellShapedPrescription [] := by
    intro hc
    simp at hc
  exact ⟨⟨h1, h2, h3⟩, run_validation_ok_on_wellshaped "invoice" [] h1 h2 h3⟩

theorem mem_rulePair_fst_iff (x a b : String) (c : Bool) :
    x ∈ (rulePair c a b).1 ↔ (c = true ∧ x = a) := by
  cases c <;> simp [rulePair]

theorem mem_rulePair_snd_iff (x a b : String) (c : Bool) :
    x ∈ (rulePair c a b).2 ↔ (c = false ∧ x = b) := by
  cases c <;> simp [rulePair]

theorem mem_optRulePair_fst_iff (x a b : String) (c1 c2 : Bool) :
    x ∈ (optRulePair c1 c2 a b).1 ↔ (c1 = true ∧ x = a) := by
  cases c1 <;> cases c2 <;> simp [optRulePair]

theorem mem_optRulePair_snd_iff (x a b : String) (c1 c2 : Bool) :
    x ∈ (optRulePair c1 c2 a b).2 ↔ (c1 = false ∧ c2 = true ∧ x = b) := by
  cases c1 <;> cases c2 <;> simp [optRulePair]

/-- C7: for an invoice carrying both `total_amount` (parseable) and
`line_items` (a list of dicts), `line_items_sum_matches_total` passes
exactly when the absolute difference between the parsed total and the sum
of the parseable line totals is strictly below 0.01, and
`line_items_sum_mismatch` fails exactly otherwise; Scenario B
(100 = 50+50) passes, Scenario C (100 vs 40) fails, and when either key
is missing the distinct `line_items_or_total_missing_for_sum_check` rule
is recorded. -/
theorem invoice_sum_rule_tolerance :
    (∀ (d : List (String × PyVal)) (tv : PyVal) (t : ℚ) (l : List PyVal),
      dateFieldOk d "invoice_date" → dueDateOk d →
      assocLookup d "total_amount" = Option.some tv →
      pyFloat tv = Except.ok t →
      assocLookup d "line_items" = Option.some (PyVal.list l) →
      (∀ x ∈ l, ∃ e, x = PyVal.dict e) →
      ∃ res, run_validation "invoice" d = Except.ok res ∧
        ("line_items_sum_matches_total" ∈ res.passed_rules ↔
          |t - parseableLineSum l| < 1/100) ∧
        ("line_items_sum_mismatch" ∈ res.failed_rules ↔
          ¬ |t - parseableLineSum l| < 1/100)) ∧
    (∃ res, run_validation "invoice" invB = Except.ok res ∧
      "line_items_sum_matches_total" ∈ res.passed_rules) ∧
    (∃ res, run_validation "invoice" invC = Except.ok res ∧
      "line_items_sum_mismatch" ∈ res.failed_rules) ∧
    (∀ d : List (String × PyVal), dateFieldOk d "invoice_date" → dueDateOk d →
      (inDict d "total_amount" && inDict d "line_items") = false →
      ∃ res, run_validation "invoice" d = Except.ok res ∧
        "line_items_or_total_missing_for_sum_check" ∈ res.failed_rules) := by
  have hmain : ∀ (d : List (String × PyVal)) (tv : PyVal) (t : ℚ) (l : List PyVal),
      dateFieldOk d "invoice_date" → dueDateOk d →
      assocLookup d "total_amount" = Option.some tv →
      pyFloat tv = Except.ok t →
      assocLookup d "line_items" = Option.some (PyVal.list l) →
      (∀ x ∈ l, ∃ e, x = PyVal.dict e) →
      ∃ res, run_validation "invoice" d = Except.ok res ∧
        ("line_items_sum_matches_total" ∈ res.passed_rules ↔
          |t - parseableLineSum l| < 1/100) ∧
        ("line_items_sum_mismatch" ∈ res.failed_rules ↔
          ¬ |t - parseableLineSum l| < 1/100) := by
    intro d tv t l hd1 hd2 hta htf hli hdicts
    have hta' : inDict d "total_amount" = true := by
      unfold inDict
      rw [hta]
      rfl
    have hli' : inDict d "line_items" = true := by
      unfold inDict
      rw [hli]
      rfl
    have hgta : dictGet d "total_amount" = tv := by
      unfold dictGet
      rw [hta]
      rfl
    have hgli : dictGet d "line_items" = PyVal.list l := by
      unfold dictGet
      rw [hli]
      rfl
    have hsum : invoiceSumInner (dictGet d "total_amount") (dictGet d "line_items") =
        Except.ok (decide (|t - parseableLineSum l| < 1/100)) := by
      rw [hgta, hgli]
      exact invoiceSumInner_dicts tv t htf l hdicts
    have h1 : ∃ b1, (if inDict d "invoice_date" then
          _is_valid_date (dictGet d "invoice_date")
        else Except.ok false) = Except.ok b1 := by
      by_cases hk : inDict d "invoice_date" = true
      · rw [if_pos hk]
        unfold inDict at hk
        rw [Option.isSome_iff_exists] at hk
        obtain ⟨v, hv⟩ := hk
        obtain ⟨s, rfl⟩ := hd1 v hv
        have hg : dictGet d "invoice_date" = PyVal.str s := by
          unfold dictGet
          rw [hv]
          rfl
        rw [hg]
        exact ⟨dateOk s, rfl⟩
      · rw [if_neg hk]
        exact ⟨false, rfl⟩
    obtain ⟨b1, hb1⟩ := h1
    have h2 : ∃ b2, (if inDict d "due_date" && pyTruthy (dictGet d "due_date") then
          _is_valid_date (dictGet d "due_date")
        else Except.ok false) = Except.ok b2 := by
      by_cases hk : (inDict d "due_date" && pyTruthy (dictGet d "due_date")) = true
      · rw [if_pos hk]
        rw [Bool.and_eq_true] at hk
        have hk1 := hk.1
        have hk2 := hk.2
        unfold inDict at hk1
        rw [Option.isSome_iff_exists] at hk1
        obtain ⟨v, hv⟩ := hk1
        have hg : dictGet d "due_date" = v := by
          unfold dictGet
          rw [hv]
          rfl
        rw [hg] at hk2 ⊢
        obtain ⟨s, rfl⟩ := hd2 v hv hk2
        exact ⟨dateOk s, rfl⟩
      · rw [if_neg hk]
        exact ⟨false, rfl⟩
    obtain ⟨b2, hb2⟩ := h2
    have h6 : (if inDict d "total_amount" && inDict d "line_items" then
          match invoiceSumInner (dictGet d "total_amount") (dictGet d "line_items") with
          | Except.ok true =>
            Except.ok ((["line_items_sum_matches_total"] : List String), ([] : List String))
          | Except.ok false => Except.ok ([], ["line_items_sum_mismatch"])
          | Except.error PyExc.valueError =>
            Except.ok ([], ["line_items_sum_check_failed_parsing"])
          | Except.error PyExc.typeError =>
            Except.ok ([], ["line_items_sum_check_failed_parsing"])
          | Except.error e => Except.error e
        else Except.ok ([], ["line_items_or_total_missing_for_sum_check"])) =
        Except.ok (if |t - parseableLineSum l| < 1/100 then
          ((["line_items_sum_matches_total"] : List String), ([] : List String))
        else ([], ["line_items_sum_mismatch"])) := by
      rw [if_pos (by rw [hta', hli']; rfl), hsum]
      by_cases hcmp : |t - parseableLineSum l| < 1/100
      · rw [decide_eq_true hcmp, if_pos hcmp]
      · rw [decide_eq_false hcmp, if_neg hcmp]
    unfold run_validation
    rw [if_pos rfl]
    unfold validate_invoice
    rw [hb1, hb2, h6]
    by_cases hcmp : |t - parseableLineSum l| < 1/100
    · rw [if_pos hcmp]
      refine ⟨_, rfl, ?_, ?_⟩
      · refine iff_of_true ?_ hcmp
        simp [List.mem_append]
      · refine iff_of_false ?_ (not_not_intro hcmp)
        simp +decide [List.mem_append, mem_rulePair_snd_iff, mem_optRulePair_snd_iff]
    · rw [if_neg hcmp]
      refine ⟨_, rfl, ?_, ?_⟩
      · refine iff_of_false ?_ hcmp
        simp +decide [List.mem_append, mem_rulePair_fst_iff, mem_optRulePair_fst_iff]
      · refine iff_of_true ?_ hcmp
        simp [List.mem_append]
  refine ⟨hmain, ?_, ?_, ?_⟩
  · have hB := hmain invB (PyVal.num 100) 100
      [PyVal.dict [("line_total", PyVal.num 50)], PyVal.dict [("line_total", PyVal.num 50)]]
      (by intro v hv; simp +decide [invB, assocLookup] at hv)
      (by intro v hv; simp +decide [invB, assocLookup] at hv)
      rfl rfl rfl
      (by
        intro x hx
        simp only [List.mem_cons, List.not_mem_nil, or_false] at hx
        rcases hx with rfl | rfl
        · exact ⟨_, rfl⟩
        · exact ⟨_, rfl⟩)
    obtain ⟨res, hres, hiff, _⟩ := hB
    refine ⟨res, hres, hiff.mpr ?_⟩
    have hps : parseableLineSum
        [PyVal.dict [("line_total", PyVal.num 50)],
         PyVal.dict [("line_total", PyVal.num 50)]] = 100 := by
      norm_num [parseableLineSum, lineTotalsOf, assocLookup, _is_valid_decimal, pyFloat,
        Except.toOption]
    rw [hps]
    norm_num
  · have hC := hmain invC (PyVal.num 100) 100
      [PyVal.dict [("line_total", PyVal.num 40)]]
      (by intro v hv; simp +decide [invC, assocLookup] at hv)
      (by intro v hv; simp +decide [invC, assocLookup] at hv)
      rfl rfl rfl
      (by
        intro x hx
        simp only [List.mem_cons, List.not_mem_nil, or_false] at hx
        rcases hx with rfl
        exact ⟨_, rfl⟩)
    obtain ⟨res, hres, _, hiff⟩ := hC
    refine ⟨res, hres, hiff.mpr ?_⟩
    have hps : parseableLineSum [PyVal.dict [("line_total", PyVal.num 40)]] = 40 := by
      norm_num [parseableLineSum, lineTotalsOf, assocLookup, _is_valid_decimal, pyFloat,
        Except.toOption]
    rw [hps]
    norm_num
  · intro d hd1 hd2 hff
    have hws : wellShapedInvoice d := by
      refine ⟨hd1, hd2, fun h1 h2 => ?_⟩
      rw [h1, h2] at hff
      simp at hff
    obtain ⟨pf, hpf, _, hB⟩ := validate_invoice_ok d hws
    unfold run_validation
    rw [if_pos rfl, hpf]
    exact ⟨_, rfl, hB hff⟩

/-- Witness for C7 at Scenario B's concrete invoice. -/
theorem invoice_sum_rule_tolerance_witness :
    (dateFieldOk invB "invoice_date" ∧ dueDateOk invB ∧
      assocLookup invB "total_amount" = Option.some (PyVal.num 100) ∧
      pyFloat (PyVal.num 100) = Except.ok 100 ∧
      assocLookup invB "line_items" = Option.some (PyVal.list
        [PyVal.dict [("line_total", PyVal.num 50)],
         PyVal.dict [("line_total", PyVal.num 50)]])) ∧
    ∃ res, run_validation "invoice" invB = Except.ok res ∧
      ("line_items_sum_matches_total" ∈ res.passed_rules ↔
        |(100 : ℚ) - parseableLineSum
          [PyVal.dict [("line_total", PyVal.num 50)],
           PyVal.dict [("line_total", PyVal.num 50)]]| < 1/100) ∧
      ("line_items_sum_mismatch" ∈ res.failed_rules ↔
        ¬ |(100 : ℚ) - parseableLineSum
          [PyVal.dict [("line_total", PyVal.num 50)],
           PyVal.dict [("line_total", PyVal.num 50)]]| < 1/100) := by
  refine ⟨⟨?_, ?_, rfl, rfl, rfl⟩, ?_⟩
  · intro v hv
    simp +decide [invB, assocLookup] at hv
  · intro v hv
    simp +decide [invB, assocLookup] at hv
  · exact invoice_sum_rule_tolerance.1 invB (PyVal.num 100) 100
      [PyVal.dict [("line_total", PyVal.num 50)], PyVal.dict [("line_total", PyVal.num 50)]]
      (by intro v hv; simp +decide [invB, assocLookup] at hv)
      (by intro v hv; simp +decide [invB, assocLookup] at hv)
      rfl rfl rfl
      (by
        intro x hx
        simp only [List.mem_cons, List.not_mem_nil, or_false] at hx
        rcases hx with rfl | rfl
        · exact ⟨_, rfl⟩
        · exact ⟨_, rfl⟩)
